import Mathlib

/-!
Verification development for the self-supervised driving data pipeline
(`ssd/aim_vo/data.py`, `ssd/train.py`, `ssd/aim_nav2/config.py`).

The Python code is shallowly embedded:

* Python lists become Lean `List`s; Python list indexing (which wraps
  negative indices and raises `IndexError` outside `[-len, len)`) is
  `pyIdx`; numpy basic slicing (which clamps) is `pySliceLen`.
* Floating point numbers are modelled by `FV := Option ℝ`: `some v` is a
  finite value, `none` is a non-finite value (NaN).  Arithmetic
  propagates `none`, mirroring NaN poisoning; `np.isnan` is `Option.isNone`.
* Fallible code (Python exceptions) returns `Option`.
* The in-place mutation of `self.theta` performed by
  `CARLA_Data2.__getitem__` is modelled by explicit state passing:
  `getitem2` returns the (possibly updated) dataset state next to the
  sample.
-/

open Real

/-! ### Python / numpy primitives -/

/-- Normalise a Python list index for a list of length `n`:
`l[i]` is valid for `-n ≤ i < n`, negative indices counting from the end. -/
def pyNorm (n : ℕ) (i : ℤ) : Option ℕ :=
  if 0 ≤ i ∧ i < n then some i.toNat
  else if -(n : ℤ) ≤ i ∧ i < 0 then some (i + n).toNat
  else none

/-- Python list indexing `l[i]` (raises `IndexError` outside `[-len, len)`). -/
def pyIdx (l : List α) (i : ℤ) : Option α :=
  (pyNorm l.length i).bind (fun k => l[k]?)

/-- Clamp one bound of a numpy basic slice on an axis of length `n`. -/
def pySliceBound (n v : ℤ) : ℤ :=
  if v < 0 then max (n + v) 0 else min v n

/-- Length of the numpy basic slice `a[start:stop]` on an axis of length `n`
(numpy clamps out-of-range bounds instead of raising). -/
def pySliceLen (n start stop : ℤ) : ℤ :=
  max (pySliceBound n stop - pySliceBound n start) 0

/-- Python `str(k).zfill(4)`. -/
def zfill4 (k : ℕ) : String :=
  let s := Nat.repr k
  String.mk (List.replicate (4 - s.length) '0') ++ s

/-- The 1-indexed, 4-digit zero-padded frame file name `"0001.png"`, ... -/
def frameName (k : ℕ) : String := zfill4 k ++ ".png"

/-! ### The float value model -/

/-- A floating point value: `some v` is finite, `none` is NaN. -/
abbrev FV := Option ℝ

def fvAdd : FV → FV → FV
  | some a, some b => some (a + b)
  | _, _ => none

def fvSub : FV → FV → FV
  | some a, some b => some (a - b)
  | _, _ => none

def fvMul : FV → FV → FV
  | some a, some b => some (a * b)
  | _, _ => none

/-- Division; a zero divisor does not yield a finite result, so the model
returns `none` (the only divisor in this development is the determinant
of a rotation matrix, which is `1`). -/
noncomputable def fvDiv : FV → FV → FV
  | some a, some b => if b = 0 then none else some (a / b)
  | _, _ => none

def fvNeg : FV → FV := Option.map (fun a => -a)

noncomputable def fvCos : FV → FV := Option.map Real.cos

noncomputable def fvSin : FV → FV := Option.map Real.sin

/-- `np.isnan`: the fix `if np.isnan(theta): theta = 0` from `data.py`. -/
def nanFix : FV → FV
  | none => some 0
  | some r => some r

/-! ### `transform_2d_points` (data.py lines 288-311)

The code acts on a single row `(x, y, z)` of the input array (the dataset
only ever passes `np.zeros((1,3))`, i.e. one row).  `np.linalg.inv` is a
proper matrix inverse; on a nonsingular 3x3 matrix it equals the
adjugate divided by the determinant, which is how `inv3` is defined. -/

/-- A 3x3 real matrix, row major. -/
@[ext] structure M3 where
  a00 : ℝ
  a01 : ℝ
  a02 : ℝ
  a10 : ℝ
  a11 : ℝ
  a12 : ℝ
  a20 : ℝ
  a21 : ℝ
  a22 : ℝ

/-- Determinant of a 3x3 matrix (cofactor expansion along the first row). -/
def det3 (A : M3) : ℝ :=
  A.a00 * (A.a11 * A.a22 - A.a12 * A.a21)
    - A.a01 * (A.a10 * A.a22 - A.a12 * A.a20)
    + A.a02 * (A.a10 * A.a21 - A.a11 * A.a20)

/-- Exact inverse of a nonsingular 3x3 matrix: adjugate over determinant
(the value `np.linalg.inv` computes on a nonsingular input). -/
noncomputable def inv3 (A : M3) : M3 :=
  let d := det3 A
  { a00 := (A.a11 * A.a22 - A.a12 * A.a21) / d
    a01 := (A.a02 * A.a21 - A.a01 * A.a22) / d
    a02 := (A.a01 * A.a12 - A.a02 * A.a11) / d
    a10 := (A.a12 * A.a20 - A.a10 * A.a22) / d
    a11 := (A.a00 * A.a22 - A.a02 * A.a20) / d
    a12 := (A.a02 * A.a10 - A.a00 * A.a12) / d
    a20 := (A.a10 * A.a21 - A.a11 * A.a20) / d
    a21 := (A.a01 * A.a20 - A.a00 * A.a21) / d
    a22 := (A.a00 * A.a11 - A.a01 * A.a10) / d }

/-- Apply a 3x3 matrix to a column vector `(x, y, z)`. -/
def apply3 (A : M3) (v : ℝ × ℝ × ℝ) : ℝ × ℝ × ℝ :=
  (A.a00 * v.1 + A.a01 * v.2.1 + A.a02 * v.2.2,
   A.a10 * v.1 + A.a11 * v.2.1 + A.a12 * v.2.2,
   A.a20 * v.1 + A.a21 * v.2.1 + A.a22 * v.2.2)

/-- `np.matrix([[c, s, t_x], [-s, c, t_y], [0, 0, 1]])` with `c, s = cos r, sin r`. -/
noncomputable def rotMat (r tx ty : ℝ) : M3 :=
  { a00 := Real.cos r, a01 := Real.sin r, a02 := tx
    a10 := -Real.sin r, a11 := Real.cos r, a12 := ty
    a20 := 0, a21 := 0, a22 := 1 }

/-- `transform_2d_points` on one point: set `z` to 1, lift through the
`r1` frame matrix, apply the inverse of the `r2` frame matrix, and reset
`z` to its input value. -/
noncomputable def transform_2d_points (p : ℝ × ℝ × ℝ)
    (r1 t1x t1y r2 t2x t2y : ℝ) : ℝ × ℝ × ℝ :=
  let xy1 : ℝ × ℝ × ℝ := (p.1, p.2.1, 1)
  let world := apply3 (rotMat r1 t1x t1y) xy1
  let out := apply3 (inv3 (rotMat r2 t2x t2y)) world
  (out.1, out.2.1, p.2.2)

/-- A 3x3 matrix of float values. -/
structure M3F where
  a00 : FV
  a01 : FV
  a02 : FV
  a10 : FV
  a11 : FV
  a12 : FV
  a20 : FV
  a21 : FV
  a22 : FV

def det3F (A : M3F) : FV :=
  fvAdd
    (fvSub (fvMul A.a00 (fvSub (fvMul A.a11 A.a22) (fvMul A.a12 A.a21)))
      (fvMul A.a01 (fvSub (fvMul A.a10 A.a22) (fvMul A.a12 A.a20))))
    (fvMul A.a02 (fvSub (fvMul A.a10 A.a21) (fvMul A.a11 A.a20)))

noncomputable def inv3F (A : M3F) : M3F :=
  let d := det3F A
  { a00 := fvDiv (fvSub (fvMul A.a11 A.a22) (fvMul A.a12 A.a21)) d
    a01 := fvDiv (fvSub (fvMul A.a02 A.a21) (fvMul A.a01 A.a22)) d
    a02 := fvDiv (fvSub (fvMul A.a01 A.a12) (fvMul A.a02 A.a11)) d
    a10 := fvDiv (fvSub (fvMul A.a12 A.a20) (fvMul A.a10 A.a22)) d
    a11 := fvDiv (fvSub (fvMul A.a00 A.a22) (fvMul A.a02 A.a20)) d
    a12 := fvDiv (fvSub (fvMul A.a02 A.a10) (fvMul A.a00 A.a12)) d
    a20 := fvDiv (fvSub (fvMul A.a10 A.a21) (fvMul A.a11 A.a20)) d
    a21 := fvDiv (fvSub (fvMul A.a01 A.a20) (fvMul A.a00 A.a21)) d
    a22 := fvDiv (fvSub (fvMul A.a00 A.a11) (fvMul A.a01 A.a10)) d }

def apply3F (A : M3F) (v : FV × FV × FV) : FV × FV × FV :=
  (fvAdd (fvAdd (fvMul A.a00 v.1) (fvMul A.a01 v.2.1)) (fvMul A.a02 v.2.2),
   fvAdd (fvAdd (fvMul A.a10 v.1) (fvMul A.a11 v.2.1)) (fvMul A.a12 v.2.2),
   fvAdd (fvAdd (fvMul A.a20 v.1) (fvMul A.a21 v.2.1)) (fvMul A.a22 v.2.2))

noncomputable def rotMatF (r tx ty : FV) : M3F :=
  { a00 := fvCos r, a01 := fvSin r, a02 := tx
    a10 := fvNeg (fvSin r), a11 := fvCos r, a12 := ty
    a20 := some 0, a21 := some 0, a22 := some 1 }

/-- `transform_2d_points` on float values (any NaN operand poisons the
affected outputs, as in numpy). -/
noncomputable def transformF (p : FV × FV × FV) (r1 t1x t1y r2 t2x t2y : FV) :
    FV × FV × FV :=
  let xy1 : FV × FV × FV := (p.1, p.2.1, some 1)
  let world := apply3F (rotMatF r1 t1x t1y) xy1
  let out := apply3F (inv3F (rotMatF r2 t2x t2y)) world
  (out.1, out.2.1, p.2.2)

/-- One waypoint of `CARLA_Data2.__getitem__` (data.py lines 249-251):
the origin transformed from the step frame into the ego frame, with the
`pi/2 - theta` heading convention and negated translations. -/
noncomputable def localWaypointF (thI xI yI egoTh egoX egoY : FV) : FV × FV :=
  let out := transformF (some 0, some 0, some 0)
    (fvSub (some (Real.pi / 2)) thI) (fvNeg xI) (fvNeg yI)
    (fvSub (some (Real.pi / 2)) egoTh) (fvNeg egoX) (fvNeg egoY)
  (out.1, out.2.1)

/-- The goal-point transform of `CARLA_Data2.__getitem__` (data.py lines
257-263): `R.T @ (command - ego)` with `R` the rotation by `pi/2 + ego_theta`. -/
noncomputable def targetF (egoTh egoX egoY xc yc : FV) : FV × FV :=
  let a := fvAdd (some (Real.pi / 2)) egoTh
  let vx := fvSub xc egoX
  let vy := fvSub yc egoY
  (fvAdd (fvMul (fvCos a) vx) (fvMul (fvSin a) vy),
   fvAdd (fvMul (fvNeg (fvSin a)) vx) (fvMul (fvCos a) vy))

/-! ### Dataset configuration and state (`CARLA_Data2`) -/

/-- The configuration fields of `GlobalConfig` consumed by the datasets. -/
structure Config where
  seq_len : ℕ
  pred_len : ℕ
  ignore_sides : Bool
  ignore_rear : Bool
  scale : ℕ
  input_resolution : ℕ
deriving DecidableEq

/-- A processed image: `scale_and_crop_image(Image.open(path), scale, crop)`.
Pixel content lives on disk, outside the embedding; the token records which
file was opened and with which preprocessing parameters. -/
structure ProcImage where
  path : String
  scale : ℕ
  crop : ℕ
deriving DecidableEq

def procImg (cfg : Config) (path : String) : ProcImage :=
  { path := path, scale := cfg.scale, crop := cfg.input_resolution }

/-- A value stored in the returned Python dict. -/
inductive SVal where
  | imgs : List ProcImage → SVal
  | wps : List (FV × FV) → SVal
  | pt : FV × FV → SVal
  | scl : FV → SVal

/-- The Python dict returned by `__getitem__`, as an insertion-ordered
association list (key presence is observable, matching dict semantics). -/
abbrev Sample := List (String × SVal)

/-- The state of a `CARLA_Data2` instance after `__init__`:
the fourteen parallel per-window sequences. -/
structure DState where
  cfg : Config
  front : List (List String)
  left : List (List String)
  right : List (List String)
  rear : List (List String)
  x : List (List FV)
  y : List (List FV)
  x_command : List FV
  y_command : List FV
  theta : List (List FV)
  steer : List FV
  throttle : List FV
  brake : List FV
  command : List FV
  velocity : List FV

/-- `CARLA_Data2.__len__`. -/
def dataLen (st : DState) : ℕ := st.front.length

/-- The image/NaN-fix loop of `CARLA_Data2.__getitem__` (lines 223-237):
iteration `i` opens the front frame (and side/rear frames unless ignored),
then overwrites `seq_theta[i]` with `0` if it is NaN.  An out-of-range
access raises (`false`); mutations made before the raise persist. -/
def itemLoop (is ir : Bool) (sF sL sR sRe : List String) :
    ℕ → ℕ → List FV → List FV × Bool
  | _, 0, th => (th, true)
  | i, n + 1, th =>
    if i < sF.length then
      if is = false ∧ (sL.length ≤ i ∨ sR.length ≤ i) then (th, false)
      else if ir = false ∧ sRe.length ≤ i then (th, false)
      else
        match th[i]? with
        | none => (th, false)
        | some none => itemLoop is ir sF sL sR sRe (i + 1) n (th.set i (some 0))
        | some (some _) => itemLoop is ir sF sL sR sRe (i + 1) n th
    else (th, false)

/-- The pure effect of the NaN-fix loop on the heading list: entries
`i, ..., i+n-1` that are NaN are overwritten with `0`. -/
def fixSeg : List FV → ℕ → ℕ → List FV
  | th, _, 0 => th
  | th, i, n + 1 =>
    match th[i]? with
    | some none => fixSeg (th.set i (some 0)) (i + 1) n
    | _ => fixSeg th (i + 1) n

/-- The waypoint loop of `CARLA_Data2.__getitem__` (lines 244-251) over
steps `i, ..., i+n-1`; an out-of-range pose access raises. -/
noncomputable def wpLoop (th xs ys : List FV) (egoTh egoX egoY : FV) :
    ℕ → ℕ → Option (List (FV × FV))
  | _, 0 => some []
  | i, n + 1 =>
    match th[i]?, xs[i]?, ys[i]? with
    | some t, some xi, some yi =>
      (wpLoop th xs ys egoTh egoX egoY (i + 1) n).map
        (fun rest => localWaypointF t xi yi egoTh egoX egoY :: rest)
    | _, _, _ => none

/-- The sample assembled by `CARLA_Data2.__getitem__` (lines 209-271) once
the image/NaN-fix loop finished with status `ok` and fixed heading list
`fixedTh`; `none` models the exceptions of the remaining code: an
undefined loop variable `i` (`seq_len = 0`), an out-of-range pose access,
or an out-of-range access to a per-window scalar field. -/
noncomputable def sampleOf (st : DState) (index : ℤ) (sF sL sR sRe : List String)
    (sX sY fixedTh : List FV) (ok : Bool) : Option Sample :=
  if ok = false then none
  else
    match st.cfg.seq_len with
    | 0 => none
    | m + 1 =>
      match fixedTh[m]?, sX[m]?, sY[m]? with
      | some egoTh, some egoX, some egoY =>
        match wpLoop fixedTh sX sY egoTh egoX egoY 0 (m + 1 + st.cfg.pred_len) with
        | some wps =>
          match pyIdx st.x_command index, pyIdx st.y_command index,
              pyIdx st.steer index, pyIdx st.throttle index,
              pyIdx st.brake index, pyIdx st.command index,
              pyIdx st.velocity index with
          | some xc, some yc, some sv, some tv, some bv, some cv, some vv =>
            some [("fronts", SVal.imgs ((List.range (m + 1)).map
                     (fun i => procImg st.cfg (sF.getD i "")))),
                  ("lefts", SVal.imgs (if st.cfg.ignore_sides then [] else
                     (List.range (m + 1)).map (fun i => procImg st.cfg (sL.getD i "")))),
                  ("rights", SVal.imgs (if st.cfg.ignore_sides then [] else
                     (List.range (m + 1)).map (fun i => procImg st.cfg (sR.getD i "")))),
                  ("rears", SVal.imgs (if st.cfg.ignore_rear then [] else
                     (List.range (m + 1)).map (fun i => procImg st.cfg (sRe.getD i "")))),
                  ("waypoints", SVal.wps wps),
                  ("target_point", SVal.pt (targetF egoTh egoX egoY xc yc)),
                  ("steer", SVal.scl sv), ("throttle", SVal.scl tv),
                  ("brake", SVal.scl bv), ("command", SVal.scl cv),
                  ("velocity", SVal.scl vv)]
          | _, _, _, _, _, _, _ => none
        | none => none
      | _, _, _ => none

/-- `CARLA_Data2.__getitem__`: the returned sample (or `none` when the code
raises) together with the new value of `self.theta` (the loop's NaN fix
writes through the alias `seq_theta = self.theta[index]`, so it persists
even when later code raises). -/
noncomputable def getitem2core (st : DState) (index : ℤ) :
    Option Sample × List (List FV) :=
  match pyIdx st.front index, pyIdx st.left index, pyIdx st.right index,
      pyIdx st.rear index, pyIdx st.x index, pyIdx st.y index,
      pyIdx st.theta index, pyNorm st.theta.length index with
  | some sF, some sL, some sR, some sRe, some sX, some sY, some sTh, some kTh =>
    let res := itemLoop st.cfg.ignore_sides st.cfg.ignore_rear sF sL sR sRe 0 st.cfg.seq_len sTh
    (sampleOf st index sF sL sR sRe sX sY res.1 res.2, st.theta.set kTh res.1)
  | _, _, _, _, _, _, _, _ => (none, st.theta)

/-- `CARLA_Data2.__getitem__` with the state threaded explicitly: only the
`theta` field can change. -/
noncomputable def getitem2 (st : DState) (index : ℤ) : Option Sample × DState :=
  ((getitem2core st index).1, { st with theta := (getitem2core st index).2 })

/-! ### The reduced pseudo-label dataset (`CARLA_Data`) -/

/-- The fixed matrix `M = np.array([[0, 1], [-1, 0]])` of
`CARLA_Data.__getitem__` (data.py line 49). -/
def mat2 : (ℝ × ℝ) × (ℝ × ℝ) := ((0, 1), (-1, 0))

/-- Multiply a 2x2 matrix with a column vector (`M @ v`). -/
def mat2App (A : (ℝ × ℝ) × (ℝ × ℝ)) (v : ℝ × ℝ) : ℝ × ℝ :=
  (A.1.1 * v.1 + A.1.2 * v.2, A.2.1 * v.1 + A.2.2 * v.2)

/-- State of a `CARLA_Data` instance: pseudo-label cache contents. -/
structure DState1 where
  cfg : Config
  front : List (List String)
  waypoints : List (List (ℝ × ℝ))
  target : List (ℝ × ℝ)

/-- The sample returned by `CARLA_Data.__getitem__` (keys `fronts`,
`waypoints`, `target_point`; none of them conditional). -/
structure Sample1 where
  fronts : List ProcImage
  waypoints : List (ℝ × ℝ)
  target_point : ℝ × ℝ

/-- `CARLA_Data.__getitem__` (data.py lines 38-55): applies `M` to every
cached waypoint, truncates to `pred_len + 1`, and applies `M` to the
cached target point. -/
def getitem1 (st : DState1) (index : ℤ) : Option Sample1 :=
  match pyIdx st.front index, pyIdx st.waypoints index, pyIdx st.target index with
  | some sF, some wps, some tg =>
    if st.cfg.seq_len ≤ sF.length then
      some { fronts := (List.range st.cfg.seq_len).map (fun i => procImg st.cfg (sF.getD i ""))
             waypoints := (wps.map (mat2App mat2)).take (st.cfg.pred_len + 1)
             target_point := mat2App mat2 tg }
    else none
  | _, _, _ => none

/-! ### The sequence indexer (`CARLA_Data2.__init__`, lines 100-164) -/

/-- `num_seq = (len(os.listdir(route + "/rgb_front/")) - pred_len - 2) // seq_len`
with Python floor division. -/
def num_seq (n pred_len seq_len : ℕ) : ℤ :=
  Int.fdiv ((n : ℤ) - pred_len - 2) seq_len

/-- The frame structure of one window: past/current front-frame file names
and the 1-indexed frame numbers of the future measurement records. -/
structure WindowFrames where
  fronts : List String
  futures : List ℕ
deriving DecidableEq

/-- The windows the indexer derives from a route with `n` front-camera
frames: window `seq` uses frames `seq*s+1 .. seq*s+s` (4-digit zero-padded,
1-indexed) and the following `p` frames as its future span. -/
def routeWindows (n s p : ℕ) : List WindowFrames :=
  (List.range (num_seq n p s).toNat).map (fun seq =>
    { fronts := (List.range s).map (fun i => frameName (seq * s + 1 + i))
      futures := (List.range p).map (fun i => seq * s + 1 + s + i) })

/-- Sequential fallible reads `f i, f (i+1), ..., f (i+n-1)`: the first
failure aborts the whole loop (a raised exception). -/
def optMap (f : ℕ → Option α) : ℕ → ℕ → Option (List α)
  | _, 0 => some []
  | i, n + 1 =>
    match f i with
    | some a => (optMap f (i + 1) n).map (fun rest => a :: rest)
    | none => none

/-- One `measurements/XXXX.json` record. -/
structure Meas where
  x : FV
  y : FV
  theta : FV
  x_command : FV
  y_command : FV
  steer : FV
  throttle : FV
  brake : FV
  command : FV
  speed : FV

/-- One window as assembled by the indexer. -/
structure BWin where
  fronts : List String
  lefts : List String
  rights : List String
  rears : List String
  xs : List FV
  ys : List FV
  thetas : List FV
  x_command : FV
  y_command : FV
  steer : FV
  throttle : FV
  brake : FV
  command : FV
  velocity : FV

/-- Build window `seq` of a route whose measurement records (0-indexed by
frame number minus one) are `meas`: past/current poses are read raw, the
last past record supplies the control labels and goal point, and future
headings get the NaN fix (data.py lines 109-164).  A missing measurement
file raises. -/
def buildWindow (meas : List Meas) (rd : String) (s p seq : ℕ) : Option BWin :=
  match optMap (fun i => meas[seq * s + i]?) 0 s,
      optMap (fun i => meas[seq * s + s + i]?) 0 p with
  | some pastM, some futM =>
    match pastM.getLast? with
    | some last =>
      some { fronts := (List.range s).map (fun i => rd ++ "/rgb_front/" ++ frameName (seq * s + 1 + i))
             lefts := (List.range s).map (fun i => rd ++ "/rgb_left/" ++ frameName (seq * s + 1 + i))
             rights := (List.range s).map (fun i => rd ++ "/rgb_right/" ++ frameName (seq * s + 1 + i))
             rears := (List.range s).map (fun i => rd ++ "/rgb_rear/" ++ frameName (seq * s + 1 + i))
             xs := pastM.map (fun m => m.x) ++ futM.map (fun m => m.x)
             ys := pastM.map (fun m => m.y) ++ futM.map (fun m => m.y)
             thetas := pastM.map (fun m => m.theta) ++ futM.map (fun m => nanFix m.theta)
             x_command := last.x_command
             y_command := last.y_command
             steer := last.steer
             throttle := last.throttle
             brake := last.brake
             command := last.command
             velocity := last.speed }
    | none => none
  | _, _ => none

/-- Index a whole route: one window per element of `range(num_seq)`. -/
def buildRoute (meas : List Meas) (rd : String) (n s p : ℕ) : Option (List BWin) :=
  optMap (buildWindow meas rd s p) 0 (num_seq n p s).toNat

/-- Assemble the per-window parallel sequences of a freshly indexed route
into the dataset state (the `preload_*.append(...)` accumulation). -/
def mkState (cfg : Config) (ws : List BWin) : DState :=
  { cfg := cfg
    front := ws.map (fun w => w.fronts)
    left := ws.map (fun w => w.lefts)
    right := ws.map (fun w => w.rights)
    rear := ws.map (fun w => w.rears)
    x := ws.map (fun w => w.xs)
    y := ws.map (fun w => w.ys)
    x_command := ws.map (fun w => w.x_command)
    y_command := ws.map (fun w => w.y_command)
    theta := ws.map (fun w => w.thetas)
    steer := ws.map (fun w => w.steer)
    throttle := ws.map (fun w => w.throttle)
    brake := ws.map (fun w => w.brake)
    command := ws.map (fun w => w.command)
    velocity := ws.map (fun w => w.velocity) }

/-! ### Preload cache loading (`CARLA_Data2.__init__`, lines 184-201) -/

/-- A deserialized preload dictionary (`np.load(...).item()`). -/
structure PreloadDict where
  front : List (List String)
  left : List (List String)
  right : List (List String)
  rear : List (List String)
  x : List (List FV)
  y : List (List FV)
  x_command : List FV
  y_command : List FV
  theta : List (List FV)
  steer : List FV
  throttle : List FV
  brake : List FV
  command : List FV
  velocity : List FV

/-- The load phase: every field list is concatenated onto the dataset state
(`self.front += preload_dict.item()['front']`, ...).  No validation of any
kind is performed. -/
def loadPreload (st : DState) (d : PreloadDict) : DState :=
  { st with
    front := st.front ++ d.front
    left := st.left ++ d.left
    right := st.right ++ d.right
    rear := st.rear ++ d.rear
    x := st.x ++ d.x
    y := st.y ++ d.y
    x_command := st.x_command ++ d.x_command
    y_command := st.y_command ++ d.y_command
    theta := st.theta ++ d.theta
    steer := st.steer ++ d.steer
    throttle := st.throttle ++ d.throttle
    brake := st.brake ++ d.brake
    command := st.command ++ d.command
    velocity := st.velocity ++ d.velocity }

/-! ### Image preprocessing shape (`scale_and_crop_image`, lines 274-285) -/

/-- The output shape of `scale_and_crop_image` on an image of `ch` channels
and size `w x h`: resize to `(w // scale, h // scale)` (numpy array shape
`(h2, w2, ch)`), slice `crop` rows from `h2//2 - crop//2` and `crop`
columns from `w2//2 - crop//2` (numpy slicing clamps silently), then
transpose `(2, 0, 1)`. -/
def scale_and_crop_shape (w h ch scale crop : ℕ) : ℕ × ℕ × ℕ :=
  let w2 := w / scale
  let h2 := h / scale
  let start_x : ℤ := ((h2 / 2 : ℕ) : ℤ) - ((crop / 2 : ℕ) : ℤ)
  let start_y : ℤ := ((w2 / 2 : ℕ) : ℤ) - ((crop / 2 : ℕ) : ℤ)
  let rows := pySliceLen (h2 : ℤ) start_x (start_x + crop)
  let cols := pySliceLen (w2 : ℤ) start_y (start_y + crop)
  (ch, rows.toNat, cols.toNat)

/-! ### The self-supervised label generator (`Engine.get_labels`,
train.py lines 111-168) -/

/-- Per-item inputs of the label-generation loop. -/
structure SSDItem where
  ssd_front : String
  x_command : ℝ
  y_command : ℝ

/-- One emitted cache entry (the reduced pseudo-label field set). -/
structure LabelEntry where
  front : List String
  x : List ℝ
  y : List ℝ
  theta : List ℝ
  x_command : ℝ
  y_command : ℝ
  waypoints : List (ℝ × ℝ)

/-- The cache entry emitted for one item `i` (train.py lines 147-157):
zero-filled future pose fields of length `pred_len + 1`, and the waypoint
list `(0.0, 0.0)` followed by the first `len(pred_wp[0])` predicted pairs. -/
def mkLabelEntry (pred_len : ℕ) (item : SSDItem) (firstLen : ℕ)
    (pred : List (ℝ × ℝ)) : LabelEntry :=
  { front := [item.ssd_front]
    x := List.replicate (pred_len + 1) 0
    y := List.replicate (pred_len + 1) 0
    theta := List.replicate (pred_len + 1) 0
    x_command := item.x_command
    y_command := item.y_command
    waypoints := (0, 0) :: (List.range firstLen).map (fun j => pred.getD j (0, 0)) }

/-- The label-generation loop over one batch: one entry per prediction,
the inner waypoint loop bounded by the first prediction's length. -/
def getLabelsBatch (pred_len : ℕ) (items : List SSDItem)
    (preds : List (List (ℝ × ℝ))) : List LabelEntry :=
  (List.range preds.length).map (fun i =>
    mkLabelEntry pred_len (items.getD i { ssd_front := "", x_command := 0, y_command := 0 })
      ((preds.headD []).length) (preds.getD i []))

/-! ### Derived forms and well-formedness -/

/-- The sample `__getitem__` returns on the success path, written with
explicit list lookups (`getD`): ego pose at step `m = seq_len - 1`,
`m + 1 + pred_len` waypoints, transformed goal point, raw labels. -/
noncomputable def mkSample2 (cfg : Config) (sF sL sR sRe : List String)
    (sX sY fixedTh : List FV) (m : ℕ) (xc yc sv tv bv cv vv : FV) : Sample :=
  [("fronts", SVal.imgs ((List.range (m + 1)).map (fun i => procImg cfg (sF.getD i "")))),
   ("lefts", SVal.imgs (if cfg.ignore_sides then [] else
      (List.range (m + 1)).map (fun i => procImg cfg (sL.getD i "")))),
   ("rights", SVal.imgs (if cfg.ignore_sides then [] else
      (List.range (m + 1)).map (fun i => procImg cfg (sR.getD i "")))),
   ("rears", SVal.imgs (if cfg.ignore_rear then [] else
      (List.range (m + 1)).map (fun i => procImg cfg (sRe.getD i "")))),
   ("waypoints", SVal.wps ((List.range (m + 1 + cfg.pred_len)).map (fun j =>
      localWaypointF (fixedTh.getD j none) (sX.getD j none) (sY.getD j none)
        (fixedTh.getD m none) (sX.getD m none) (sY.getD m none)))),
   ("target_point", SVal.pt (targetF (fixedTh.getD m none) (sX.getD m none)
      (sY.getD m none) xc yc)),
   ("steer", SVal.scl sv), ("throttle", SVal.scl tv), ("brake", SVal.scl bv),
   ("command", SVal.scl cv), ("velocity", SVal.scl vv)]

/-- The waypoint list of a returned sample. -/
def sampleWaypoints (s : Sample) : List (FV × FV) :=
  match s.lookup "waypoints" with
  | some (SVal.wps l) => l
  | _ => []

/-- Well-formedness of a dataset state: a positive window length, all
fourteen parallel sequences of equal length, and every window's inner
lists long enough for the accesses `__getitem__` performs. -/
def WFState (st : DState) : Prop :=
  0 < st.cfg.seq_len ∧
  st.left.length = st.front.length ∧
  st.right.length = st.front.length ∧
  st.rear.length = st.front.length ∧
  st.x.length = st.front.length ∧
  st.y.length = st.front.length ∧
  st.theta.length = st.front.length ∧
  st.x_command.length = st.front.length ∧
  st.y_command.length = st.front.length ∧
  st.steer.length = st.front.length ∧
  st.throttle.length = st.front.length ∧
  st.brake.length = st.front.length ∧
  st.command.length = st.front.length ∧
  st.velocity.length = st.front.length ∧
  (∀ l ∈ st.front, st.cfg.seq_len ≤ l.length) ∧
  (st.cfg.ignore_sides = false → ∀ l ∈ st.left, st.cfg.seq_len ≤ l.length) ∧
  (st.cfg.ignore_sides = false → ∀ l ∈ st.right, st.cfg.seq_len ≤ l.length) ∧
  (st.cfg.ignore_rear = false → ∀ l ∈ st.rear, st.cfg.seq_len ≤ l.length) ∧
  (∀ l ∈ st.x, st.cfg.seq_len + st.cfg.pred_len ≤ l.length) ∧
  (∀ l ∈ st.y, st.cfg.seq_len + st.cfg.pred_len ≤ l.length) ∧
  (∀ l ∈ st.theta, st.cfg.seq_len + st.cfg.pred_len ≤ l.length)

/-! ### Concrete fixtures -/

/-- A small configuration: `seq_len = 1`, `pred_len = 1`, side and rear
cameras ignored (the shipped `GlobalConfig` also ignores both). -/
def cfgA : Config :=
  { seq_len := 1, pred_len := 1, ignore_sides := true, ignore_rear := true
    scale := 1, input_resolution := 256 }

/-- A well-formed one-window dataset state with finite headings. -/
def smallState : DState :=
  { cfg := cfgA
    front := [["0001.png"]]
    left := [["l1.png"]]
    right := [["r1.png"]]
    rear := [["b1.png"]]
    x := [[some 0, some 1]]
    y := [[some 0, some 0]]
    x_command := [some 2]
    y_command := [some 3]
    theta := [[some 0, some 0]]
    steer := [some 0]
    throttle := [some 0]
    brake := [some 0]
    command := [some 2]
    velocity := [some 0] }

/-- `smallState` with a NaN heading in the past/current step of window 0. -/
def nanState : DState := { smallState with theta := [[none, some 0]] }

/-- A measurement record with a NaN heading but finite positions. -/
def measNaN : Meas :=
  { x := some 0, y := some 0, theta := none, x_command := some 1
    y_command := some 1, steer := some 0, throttle := some 0, brake := some 0
    command := some 2, speed := some 0 }

/-- A measurement record with heading 0 and finite positions. -/
def measOk : Meas := { measNaN with theta := some 0 }

/-- A two-frame route whose first (past/current) heading is NaN. -/
def nanRoute : List Meas := [measNaN, measOk]

/-- A one-entry pseudo-label dataset state. -/
def pseudoState : DState1 :=
  { cfg := { seq_len := 1, pred_len := 4, ignore_sides := true, ignore_rear := true
             scale := 1, input_resolution := 256 }
    front := [["w1.png"]]
    waypoints := [[(1, 0)]]
    target := [(3, 4)] }

/-- A dataset state before any preload file is loaded. -/
def emptyState : DState :=
  { cfg := cfgA, front := [], left := [], right := [], rear := [], x := []
    y := [], x_command := [], y_command := [], theta := [], steer := []
    throttle := [], brake := [], command := [], velocity := [] }

/-- A corrupt preload dictionary: every field has two entries except
`steer`, which has one. -/
def badDict : PreloadDict :=
  { front := [["0001.png"], ["0002.png"]]
    left := [["l1"], ["l2"]]
    right := [["r1"], ["r2"]]
    rear := [["b1"], ["b2"]]
    x := [[some 0], [some 0]]
    y := [[some 0], [some 0]]
    x_command := [some 0, some 0]
    y_command := [some 0, some 0]
    theta := [[some 0], [some 0]]
    steer := [some 0]
    throttle := [some 0, some 0]
    brake := [some 0, some 0]
    command := [some 0, some 0]
    velocity := [some 0, some 0] }

/-- The single window the indexer derives from `nanRoute` with
`seq_len = 1, pred_len = 1` and 4 front frames. -/
def nanWin : BWin :=
  { fronts := ["route/rgb_front/0001.png"]
    lefts := ["route/rgb_left/0001.png"]
    rights := ["route/rgb_right/0001.png"]
    rears := ["route/rgb_rear/0001.png"]
    xs := [some 0, some 0]
    ys := [some 0, some 0]
    thetas := [none, some 0]
    x_command := some 1
    y_command := some 1
    steer := some 0
    throttle := some 0
    brake := some 0
    command := some 2
    velocity := some 0 }

/-! ### Helper lemmas: the float value model and the transform -/

@[simp] theorem fvAdd_some (a b : ℝ) : fvAdd (some a) (some b) = some (a + b) := rfl

@[simp] theorem fvSub_some (a b : ℝ) : fvSub (some a) (some b) = some (a - b) := rfl

@[simp] theorem fvMul_some (a b : ℝ) : fvMul (some a) (some b) = some (a * b) := rfl

@[simp] theorem fvNeg_some (a : ℝ) : fvNeg (some a) = some (-a) := rfl

@[simp] theorem fvCos_some (a : ℝ) : fvCos (some a) = some (Real.cos a) := rfl

@[simp] theorem fvSin_some (a : ℝ) : fvSin (some a) = some (Real.sin a) := rfl

@[simp] theorem nanFix_some (a : ℝ) : nanFix (some a) = some a := rfl

@[simp] theorem nanFix_none : nanFix none = some 0 := rfl

theorem fvDiv_some_of_ne (a : ℝ) {b : ℝ} (h : b ≠ 0) :
    fvDiv (some a) (some b) = some (a / b) := by
  simp [fvDiv, h]

theorem det3_rotMat (r tx ty : ℝ) : det3 (rotMat r tx ty) = 1 := by
  simp only [det3, rotMat]
  linear_combination (Real.sin_sq_add_cos_sq r)

theorem inv3_rotMat (r tx ty : ℝ) :
    inv3 (rotMat r tx ty) =
      { a00 := Real.cos r, a01 := -Real.sin r, a02 := Real.sin r * ty - Real.cos r * tx
        a10 := Real.sin r, a11 := Real.cos r, a12 := -(Real.sin r * tx) - Real.cos r * ty
        a20 := 0, a21 := 0, a22 := 1 } := by
  have hd : det3 { a00 := Real.cos r, a01 := Real.sin r, a02 := tx, a10 := -Real.sin r, a11 := Real.cos r, a12 := ty, a20 := 0, a21 := 0, a22 := 1 } = 1 := det3_rotMat r tx ty
  ext <;> simp only [inv3, rotMat, hd, div_one]
  all_goals try ring
  all_goals linear_combination (Real.sin_sq_add_cos_sq r)

theorem apply3_rotMat_z (r tx ty : ℝ) (v : ℝ × ℝ × ℝ) :
    (apply3 (rotMat r tx ty) v).2.2 = v.2.2 := by
  simp [apply3, rotMat]

theorem apply3_inv3_rotMat_z (r tx ty : ℝ) (v : ℝ × ℝ × ℝ) :
    (apply3 (inv3 (rotMat r tx ty)) v).2.2 = v.2.2 := by
  rw [inv3_rotMat]
  simp [apply3]

/-- The exact inverse undoes the frame matrix. -/
theorem apply3_inv3_rotMat (r tx ty : ℝ) (v : ℝ × ℝ × ℝ) :
    apply3 (inv3 (rotMat r tx ty)) (apply3 (rotMat r tx ty) v) = v := by
  rw [inv3_rotMat]
  obtain ⟨x, y, z⟩ := v
  simp only [apply3, rotMat, Prod.mk.injEq]
  refine ⟨?_, ?_, ?_⟩
  · linear_combination x * (Real.sin_sq_add_cos_sq r)
  · linear_combination y * (Real.sin_sq_add_cos_sq r)
  · ring

/-- The frame matrix undoes its exact inverse. -/
theorem apply3_rotMat_inv3 (r tx ty : ℝ) (v : ℝ × ℝ × ℝ) :
    apply3 (rotMat r tx ty) (apply3 (inv3 (rotMat r tx ty)) v) = v := by
  rw [inv3_rotMat]
  obtain ⟨x, y, z⟩ := v
  simp only [apply3, rotMat, Prod.mk.injEq]
  refine ⟨?_, ?_, ?_⟩
  · linear_combination (x - tx * z) * (Real.sin_sq_add_cos_sq r)
  · linear_combination (y - ty * z) * (Real.sin_sq_add_cos_sq r)
  · ring

/-! ### Helper lemmas: Python indexing -/

theorem pyNorm_isSome_iff (n : ℕ) (i : ℤ) :
    (pyNorm n i).isSome = true ↔ (-(n : ℤ) ≤ i ∧ i < n) := by
  unfold pyNorm
  by_cases h1 : 0 ≤ i ∧ i < (n : ℤ)
  · rw [if_pos h1]
    simp only [Option.isSome_some, true_iff]
    omega
  · rw [if_neg h1]
    by_cases h2 : -(n : ℤ) ≤ i ∧ i < 0
    · rw [if_pos h2]
      simp only [Option.isSome_some, true_iff]
      omega
    · rw [if_neg h2]
      simp only [Option.isSome_none, Bool.false_eq_true, false_iff]
      omega

theorem pyNorm_lt {n : ℕ} {i : ℤ} {k : ℕ} (h : pyNorm n i = some k) : k < n := by
  unfold pyNorm at h
  by_cases h1 : 0 ≤ i ∧ i < (n : ℤ)
  · rw [if_pos h1] at h
    cases h
    omega
  · rw [if_neg h1] at h
    by_cases h2 : -(n : ℤ) ≤ i ∧ i < 0
    · rw [if_pos h2] at h
      cases h
      omega
    · rw [if_neg h2] at h
      cases h

theorem pyNorm_nonneg (n : ℕ) (i : ℤ) (h0 : 0 ≤ i) (hn : i < n) :
    pyNorm n i = some i.toNat := by
  unfold pyNorm
  rw [if_pos ⟨h0, hn⟩]

theorem pyIdx_of_norm {l : List α} {i : ℤ} {k : ℕ}
    (h : pyNorm l.length i = some k) : pyIdx l i = l[k]? := by
  unfold pyIdx
  rw [h]
  rfl

theorem pyIdx_isSome_iff (l : List α) (i : ℤ) :
    (pyIdx l i).isSome = true ↔ (-(l.length : ℤ) ≤ i ∧ i < l.length) := by
  constructor
  · intro h
    rcases ho : pyNorm l.length i with _ | k
    · unfold pyIdx at h
      rw [ho] at h
      simp at h
    · exact (pyNorm_isSome_iff _ _).mp (by rw [ho]; rfl)
  · intro h
    obtain ⟨k, hk⟩ := Option.isSome_iff_exists.mp ((pyNorm_isSome_iff _ _).mpr h)
    rw [pyIdx_of_norm hk]
    simp [List.getElem?_eq_getElem (pyNorm_lt hk)]

theorem pyIdx_none_iff (l : List α) (i : ℤ) :
    pyIdx l i = none ↔ ¬ (-(l.length : ℤ) ≤ i ∧ i < l.length) := by
  rw [← pyIdx_isSome_iff]
  cases pyIdx l i <;> simp

/-- Lists of equal length normalise an index identically, so an in-range
access of the second list succeeds as well. -/
theorem pyIdx_isSome_of_len {l : List α} {l2 : List β} {i : ℤ}
    (hlen : l2.length = l.length) (h : (pyIdx l i).isSome = true) :
    (pyIdx l2 i).isSome = true := by
  rw [pyIdx_isSome_iff] at h ⊢
  rw [hlen]
  exact h

theorem set_of_getElem?_eq :
    ∀ (l : List α) (k : ℕ) (a : α), l[k]? = some a → l.set k a = l
  | [], k, a, h => by simp at h
  | b :: t, 0, a, h => by
      simp only [List.getElem?_cons_zero, Option.some.injEq] at h
      simp [List.set, h]
  | b :: t, k + 1, a, h => by
      simp only [List.getElem?_cons_succ] at h
      simp [List.set, set_of_getElem?_eq t k a h]

/-! ### Helper lemmas: the NaN-fix loop -/

theorem fixSeg_length : ∀ (n i : ℕ) (th : List FV),
    (fixSeg th i n).length = th.length := by
  intro n
  induction n with
  | zero => intro i th; rfl
  | succ n ih =>
    intro i th
    rcases h : th[i]? with _ | v
    · simp only [fixSeg, h]
      exact ih (i + 1) th
    · rcases v with _ | r
      · simp only [fixSeg, h]
        rw [ih (i + 1) (th.set i (some 0)), List.length_set]
      · simp only [fixSeg, h]
        exact ih (i + 1) th

theorem fixSeg_getElem? : ∀ (n i : ℕ) (th : List FV) (j : ℕ),
    (fixSeg th i n)[j]? =
      if i ≤ j ∧ j < i + n then (th[j]?).map nanFix else th[j]? := by
  intro n
  induction n with
  | zero =>
    intro i th j
    rw [if_neg (by omega)]
    rfl
  | succ n ih =>
    intro i th j
    rcases h : th[i]? with _ | v
    · simp only [fixSeg, h]
      rw [ih (i + 1) th j]
      by_cases hj : j = i
      · subst hj
        rw [if_neg (by omega), if_pos (by omega), h]
        rfl
      · by_cases hc : i + 1 ≤ j ∧ j < i + 1 + n
        · rw [if_pos hc, if_pos (by omega)]
        · rw [if_neg hc, if_neg (by omega)]
    · rcases v with _ | r
      · simp only [fixSeg, h]
        rw [ih (i + 1) (th.set i (some 0)) j]
        by_cases hj : j = i
        · subst hj
          rw [if_neg (by omega), if_pos (by omega), h]
          have hlen : j < th.length := by
            rcases List.getElem?_eq_some.mp h with ⟨hl, _⟩
            exact hl
          rw [List.getElem?_set_self', h]
          rfl
        · by_cases hc : i + 1 ≤ j ∧ j < i + 1 + n
          · rw [if_pos hc, if_pos (by omega), List.getElem?_set_ne (by omega)]
          · rw [if_neg hc, if_neg (by omega), List.getElem?_set_ne (by omega)]
      · simp only [fixSeg, h]
        rw [ih (i + 1) th j]
        by_cases hj : j = i
        · subst hj
          rw [if_neg (by omega), if_pos (by omega), h]
          rfl
        · by_cases hc : i + 1 ≤ j ∧ j < i + 1 + n
          · rw [if_pos hc, if_pos (by omega)]
          · rw [if_neg hc, if_neg (by omega)]

/-- If none of the processed entries is NaN, the fix loop is the identity. -/
theorem fixSeg_eq_self : ∀ (n i : ℕ) (th : List FV),
    (∀ j, j < n → th[i + j]? ≠ some none) → fixSeg th i n = th := by
  intro n
  induction n with
  | zero => intro i th _; rfl
  | succ n ih =>
    intro i th h
    rcases hv : th[i]? with _ | v
    · simp only [fixSeg, hv]
      exact ih (i + 1) th (fun j hj => by
        rw [show i + 1 + j = i + (j + 1) from by omega]
        exact h (j + 1) (by omega))
    · rcases v with _ | r
      · exact absurd hv (by simpa using h 0 (by omega))
      · simp only [fixSeg, hv]
        exact ih (i + 1) th (fun j hj => by
          rw [show i + 1 + j = i + (j + 1) from by omega]
          exact h (j + 1) (by omega))

/-! ### Helper lemmas: the image/NaN-fix loop -/

theorem itemLoop_spec (is ir : Bool) (sF sL sR sRe : List String) :
    ∀ (n i : ℕ) (th : List FV),
      i + n ≤ sF.length →
      (is = false → i + n ≤ sL.length ∧ i + n ≤ sR.length) →
      (ir = false → i + n ≤ sRe.length) →
      i + n ≤ th.length →
      itemLoop is ir sF sL sR sRe i n th = (fixSeg th i n, true) := by
  intro n
  induction n with
  | zero => intro i th _ _ _ _; rfl
  | succ n ih =>
    intro i th hF hLR hRe hTh
    simp only [itemLoop]
    rw [if_pos (by omega)]
    rw [if_neg (by
      rintro ⟨hf, hor⟩
      rcases hLR hf with ⟨h1, h2⟩
      omega)]
    rw [if_neg (by
      rintro ⟨hf, hge⟩
      have := hRe hf
      omega)]
    rcases hv : th[i]? with _ | v
    · rw [List.getElem?_eq_none_iff] at hv
      omega
    · rcases v with _ | r
      · simp only [fixSeg, hv]
        exact ih (i + 1) (th.set i (some 0)) (by omega)
          (fun hf => by rcases hLR hf with ⟨h1, h2⟩; omega)
          (fun hf => by have := hRe hf; omega)
          (by rw [List.length_set]; omega)
      · simp only [fixSeg, hv]
        exact ih (i + 1) th (by omega)
          (fun hf => by rcases hLR hf with ⟨h1, h2⟩; omega)
          (fun hf => by have := hRe hf; omega)
          (by omega)

/-- Whatever happens (including early raises), the loop only rewrites NaN
entries; if none of the entries it can reach is NaN, the heading list is
returned unchanged. -/
theorem itemLoop_fst_id (is ir : Bool) (sF sL sR sRe : List String) :
    ∀ (n i : ℕ) (th : List FV),
      (∀ j, j < n → th[i + j]? ≠ some none) →
      (itemLoop is ir sF sL sR sRe i n th).1 = th := by
  intro n
  induction n with
  | zero => intro i th _; rfl
  | succ n ih =>
    intro i th h
    simp only [itemLoop]
    by_cases hf : i < sF.length
    · rw [if_pos hf]
      by_cases hs : is = false ∧ (sL.length ≤ i ∨ sR.length ≤ i)
      · rw [if_pos hs]
      · rw [if_neg hs]
        by_cases hr : ir = false ∧ sRe.length ≤ i
        · rw [if_pos hr]
        · rw [if_neg hr]
          rcases hv : th[i]? with _ | v
          · rfl
          · rcases v with _ | r
            · exact absurd hv (by simpa using h 0 (by omega))
            · exact ih (i + 1) th (fun j hj => by
                rw [show i + 1 + j = i + (j + 1) from by omega]
                exact h (j + 1) (by omega))
    · rw [if_neg hf]

/-! ### Helper lemmas: the waypoint loop and fallible reads -/

theorem wpLoop_spec (th xs ys : List FV) (a b c : FV) :
    ∀ (n i : ℕ), i + n ≤ th.length → i + n ≤ xs.length → i + n ≤ ys.length →
      wpLoop th xs ys a b c i n =
        some ((List.range n).map (fun j =>
          localWaypointF (th.getD (i + j) none) (xs.getD (i + j) none)
            (ys.getD (i + j) none) a b c)) := by
  intro n
  induction n with
  | zero => intro i _ _ _; rfl
  | succ n ih =>
    intro i h1 h2 h3
    have hth : th[i]? = some (th.getD i none) := by
      rw [List.getD_eq_getElem?_getD, List.getElem?_eq_getElem (by omega)]
      rfl
    have hxs : xs[i]? = some (xs.getD i none) := by
      rw [List.getD_eq_getElem?_getD, List.getElem?_eq_getElem (by omega)]
      rfl
    have hys : ys[i]? = some (ys.getD i none) := by
      rw [List.getD_eq_getElem?_getD, List.getElem?_eq_getElem (by omega)]
      rfl
    simp only [wpLoop, hth, hxs, hys]
    rw [ih (i + 1) (by omega) (by omega) (by omega)]
    simp only [Option.map_some', Option.some.injEq]
    rw [List.range_succ_eq_map]
    simp only [List.map_cons, List.map_map, Nat.add_zero]
    congr 1
    apply List.map_congr_left
    intro j _
    simp only [Function.comp_apply]
    rw [show i + 1 + j = i + (j + 1) from by omega]

theorem optMap_eq_some {α : Type} {f : ℕ → Option α} :
    ∀ (n i : ℕ) (l : List α), optMap f i n = some l →
      l.length = n ∧ ∀ j, j < n → ∃ a, f (i + j) = some a ∧ l[j]? = some a := by
  intro n
  induction n with
  | zero =>
    intro i l h
    simp only [optMap, Option.some.injEq] at h
    subst h
    exact ⟨rfl, fun j hj => by omega⟩
  | succ n ih =>
    intro i l h
    simp only [optMap] at h
    rcases hf : f i with _ | a
    · rw [hf] at h
      simp at h
    · rw [hf] at h
      rcases Option.map_eq_some'.mp h with ⟨rest, hrest, hcons⟩
      rcases ih (i + 1) rest hrest with ⟨hlen, hall⟩
      subst hcons
      refine ⟨by simp [hlen], ?_⟩
      intro j hj
      rcases j with _ | j
      · exact ⟨a, by simpa using hf, by simp⟩
      · rcases hall j (by omega) with ⟨b, hb1, hb2⟩
        exact ⟨b, by rw [show i + (j + 1) = i + 1 + j from by omega]; exact hb1,
          by simpa using hb2⟩

theorem fvDiv_some_one (a : ℝ) : fvDiv (some a) (some 1) = some a := by
  rw [fvDiv_some_of_ne a one_ne_zero, div_one]

/-- With finite inputs (after the NaN fixes) the waypoint transform yields
finite outputs: the rotation determinant is `cos^2 + sin^2 = 1`, so the
inverse exists and no NaN is produced. -/
theorem localWaypointF_some (t tx ty e ex ey : ℝ) :
    (localWaypointF (some t) (some tx) (some ty) (some e) (some ex) (some ey)).1.isSome = true ∧
    (localWaypointF (some t) (some tx) (some ty) (some e) (some ex) (some ey)).2.isSome = true := by
  have h2 : det3F { a00 := some (Real.cos (Real.pi / 2 - e)), a01 := some (Real.sin (Real.pi / 2 - e)), a02 := some (-ex), a10 := some (-Real.sin (Real.pi / 2 - e)), a11 := some (Real.cos (Real.pi / 2 - e)), a12 := some (-ey), a20 := some 0, a21 := some 0, a22 := some 1 } = some (1 : ℝ) := by
    simp only [det3F, fvMul_some, fvSub_some, fvAdd_some, Option.some.injEq]
    linear_combination (Real.sin_sq_add_cos_sq (Real.pi / 2 - e))
  constructor <;>
    simp only [localWaypointF, transformF, apply3F, inv3F, rotMatF, fvSub_some,
      fvNeg_some, fvCos_some, fvSin_some, fvAdd_some, fvMul_some, h2,
      fvDiv_some_one, Option.isSome_some]

/-! ### Helper lemmas: the `__getitem__` success path -/

theorem sampleOf_spec (st : DState) (index : ℤ) (sF sL sR sRe : List String)
    (sX sY fixedTh : List FV) (m : ℕ) (xc yc sv tv bv cv vv : FV)
    (hs : st.cfg.seq_len = m + 1)
    (hX : m + 1 + st.cfg.pred_len ≤ sX.length)
    (hY : m + 1 + st.cfg.pred_len ≤ sY.length)
    (hTh : m + 1 + st.cfg.pred_len ≤ fixedTh.length)
    (hXC : pyIdx st.x_command index = some xc)
    (hYC : pyIdx st.y_command index = some yc)
    (hSt : pyIdx st.steer index = some sv)
    (hThr : pyIdx st.throttle index = some tv)
    (hBr : pyIdx st.brake index = some bv)
    (hCm : pyIdx st.command index = some cv)
    (hVe : pyIdx st.velocity index = some vv) :
    sampleOf st index sF sL sR sRe sX sY fixedTh true =
      some (mkSample2 st.cfg sF sL sR sRe sX sY fixedTh m xc yc sv tv bv cv vv) := by
  have hm1 : fixedTh[m]? = some (fixedTh.getD m none) := by
    rw [List.getD_eq_getElem?_getD, List.getElem?_eq_getElem (by omega)]
    rfl
  have hm2 : sX[m]? = some (sX.getD m none) := by
    rw [List.getD_eq_getElem?_getD, List.getElem?_eq_getElem (by omega)]
    rfl
  have hm3 : sY[m]? = some (sY.getD m none) := by
    rw [List.getD_eq_getElem?_getD, List.getElem?_eq_getElem (by omega)]
    rfl
  unfold sampleOf
  rw [if_neg (by simp)]
  rw [hs]
  simp only [hm1, hm2, hm3]
  rw [wpLoop_spec fixedTh sX sY (fixedTh.getD m none) (sX.getD m none)
    (sY.getD m none) (m + 1 + st.cfg.pred_len) 0 (by omega) (by omega) (by omega)]
  simp only [hXC, hYC, hSt, hThr, hBr, hCm, hVe]
  simp only [mkSample2, Nat.zero_add]

theorem getitem2core_spec (st : DState) (index : ℤ) (kTh : ℕ)
    (sF sL sR sRe : List String) (sX sY sTh : List FV)
    (hF : pyIdx st.front index = some sF)
    (hL : pyIdx st.left index = some sL)
    (hR : pyIdx st.right index = some sR)
    (hRe : pyIdx st.rear index = some sRe)
    (hX : pyIdx st.x index = some sX)
    (hY : pyIdx st.y index = some sY)
    (hTh : pyIdx st.theta index = some sTh)
    (hk : pyNorm st.theta.length index = some kTh)
    (hlF : st.cfg.seq_len ≤ sF.length)
    (hlL : st.cfg.ignore_sides = false →
      st.cfg.seq_len ≤ sL.length ∧ st.cfg.seq_len ≤ sR.length)
    (hlRe : st.cfg.ignore_rear = false → st.cfg.seq_len ≤ sRe.length)
    (hlTh : st.cfg.seq_len ≤ sTh.length) :
    getitem2core st index =
      (sampleOf st index sF sL sR sRe sX sY (fixSeg sTh 0 st.cfg.seq_len) true,
       st.theta.set kTh (fixSeg sTh 0 st.cfg.seq_len)) := by
  unfold getitem2core
  rw [hF, hL, hR, hRe, hX, hY, hTh, hk]
  dsimp only
  rw [itemLoop_spec st.cfg.ignore_sides st.cfg.ignore_rear sF sL sR sRe
    st.cfg.seq_len 0 sTh (by omega)
    (fun hf => by rcases hlL hf with ⟨h1, h2⟩; omega)
    (fun hf => by have := hlRe hf; omega)
    (by omega)]

theorem pyIdx_mem {l : List α} {i : ℤ} {a : α} (h : pyIdx l i = some a) : a ∈ l := by
  unfold pyIdx at h
  rcases hk : pyNorm l.length i with _ | k
  · rw [hk] at h
    simp at h
  · rw [hk] at h
    exact List.getElem?_mem h

theorem nanFix_isSome (v : FV) : (nanFix v).isSome = true := by
  cases v <;> rfl

/-- On a well-formed state, every Python-valid index makes
`CARLA_Data2.__getitem__` succeed, and the result is the explicit sample
with the per-window NaN fix written back into `theta`. -/
theorem getitem2_success (st : DState) (index : ℤ) (hwf : WFState st)
    (hidx : (pyIdx st.front index).isSome = true) :
    ∃ m kTh sTh sample,
      st.cfg.seq_len = m + 1 ∧
      pyIdx st.theta index = some sTh ∧
      pyNorm st.theta.length index = some kTh ∧
      m + 1 + st.cfg.pred_len ≤ sTh.length ∧
      getitem2 st index =
        (some sample, { st with theta := st.theta.set kTh (fixSeg sTh 0 (m + 1)) }) ∧
      ∃ sF sL sR sRe sX sY xc yc sv tv bv cv vv,
        pyIdx st.x index = some sX ∧
        pyIdx st.y index = some sY ∧
        m + 1 + st.cfg.pred_len ≤ sX.length ∧
        m + 1 + st.cfg.pred_len ≤ sY.length ∧
        sample = mkSample2 st.cfg sF sL sR sRe sX sY (fixSeg sTh 0 (m + 1)) m
          xc yc sv tv bv cv vv := by
  obtain ⟨hpos, hlL, hlR, hlRe, hlX, hlY, hlTh, hlXC, hlYC, hlSt, hlThr, hlBr,
    hlCm, hlVe, hiF, hiL, hiR, hiRe, hiX, hiY, hiTh⟩ := hwf
  obtain ⟨m, hm⟩ : ∃ m, st.cfg.seq_len = m + 1 := ⟨st.cfg.seq_len - 1, by omega⟩
  obtain ⟨sF, hF⟩ := Option.isSome_iff_exists.mp hidx
  obtain ⟨sL, hL⟩ := Option.isSome_iff_exists.mp (pyIdx_isSome_of_len hlL hidx)
  obtain ⟨sR, hR⟩ := Option.isSome_iff_exists.mp (pyIdx_isSome_of_len hlR hidx)
  obtain ⟨sRe, hRe⟩ := Option.isSome_iff_exists.mp (pyIdx_isSome_of_len hlRe hidx)
  obtain ⟨sX, hX⟩ := Option.isSome_iff_exists.mp (pyIdx_isSome_of_len hlX hidx)
  obtain ⟨sY, hY⟩ := Option.isSome_iff_exists.mp (pyIdx_isSome_of_len hlY hidx)
  obtain ⟨sTh, hTh⟩ := Option.isSome_iff_exists.mp (pyIdx_isSome_of_len hlTh hidx)
  obtain ⟨xc, hXC⟩ := Option.isSome_iff_exists.mp (pyIdx_isSome_of_len hlXC hidx)
  obtain ⟨yc, hYC⟩ := Option.isSome_iff_exists.mp (pyIdx_isSome_of_len hlYC hidx)
  obtain ⟨sv, hSt⟩ := Option.isSome_iff_exists.mp (pyIdx_isSome_of_len hlSt hidx)
  obtain ⟨tv, hThr⟩ := Option.isSome_iff_exists.mp (pyIdx_isSome_of_len hlThr hidx)
  obtain ⟨bv, hBr⟩ := Option.isSome_iff_exists.mp (pyIdx_isSome_of_len hlBr hidx)
  obtain ⟨cv, hCm⟩ := Option.isSome_iff_exists.mp (pyIdx_isSome_of_len hlCm hidx)
  obtain ⟨vv, hVe⟩ := Option.isSome_iff_exists.mp (pyIdx_isSome_of_len hlVe hidx)
  obtain ⟨kTh, hk⟩ : ∃ k, pyNorm st.theta.length index = some k := by
    have : (pyIdx st.theta index).isSome = true := by rw [hTh]; rfl
    rw [pyIdx_isSome_iff] at this
    exact Option.isSome_iff_exists.mp ((pyNorm_isSome_iff _ _).mpr this)
  have hlenTh : st.cfg.seq_len + st.cfg.pred_len ≤ sTh.length := hiTh _ (pyIdx_mem hTh)
  have hlenX : st.cfg.seq_len + st.cfg.pred_len ≤ sX.length := hiX _ (pyIdx_mem hX)
  have hlenY : st.cfg.seq_len + st.cfg.pred_len ≤ sY.length := hiY _ (pyIdx_mem hY)
  have hcore := getitem2core_spec st index kTh sF sL sR sRe sX sY sTh hF hL hR
    hRe hX hY hTh hk (hiF _ (pyIdx_mem hF))
    (fun hf => ⟨hiL hf _ (pyIdx_mem hL), hiR hf _ (pyIdx_mem hR)⟩)
    (fun hf => hiRe hf _ (pyIdx_mem hRe))
    (by omega)
  have hsample := sampleOf_spec st index sF sL sR sRe sX sY
    (fixSeg sTh 0 st.cfg.seq_len) m xc yc sv tv bv cv vv hm
    (by omega) (by omega) (by rw [fixSeg_length]; omega)
    hXC hYC hSt hThr hBr hCm hVe
  refine ⟨m, kTh, sTh, _, hm, hTh, hk, by omega, ?_, sF, sL, sR, sRe, sX, sY,
    xc, yc, sv, tv, bv, cv, vv, hX, hY, by omega, by omega, rfl⟩
  unfold getitem2
  rw [hcore]
  dsimp only
  rw [← hm, hsample]

/-! ### Claim theorems -/

/-- Claim C2: for every point and every pair of frames `A = (thA, xA, yA)`
and `B = (thB, xB, yB)`, applying `transform_2d_points` from frame A to
frame B and then from frame B back to frame A returns the original point
exactly (over the reals; every heading gives a rotation matrix with
determinant 1, so no frame is degenerate). -/
theorem C2_transform_roundtrip (p : ℝ × ℝ × ℝ) (thA xA yA thB xB yB : ℝ) :
    transform_2d_points (transform_2d_points p thA xA yA thB xB yB)
      thB xB yB thA xA yA = p := by
  obtain ⟨x, y, z⟩ := p
  simp only [transform_2d_points]
  generalize hout : apply3 (inv3 (rotMat thB xB yB))
    (apply3 (rotMat thA xA yA) (x, y, 1)) = o
  obtain ⟨o1, o2, o3⟩ := o
  have h3 : o3 = 1 := by
    have hzz := congrArg (fun t : ℝ × ℝ × ℝ => t.2.2) hout
    dsimp only at hzz
    rw [apply3_inv3_rotMat_z, apply3_rotMat_z] at hzz
    exact hzz.symm
  subst h3
  have hB : apply3 (rotMat thB xB yB) (o1, o2, 1) =
      apply3 (rotMat thA xA yA) (x, y, 1) := by
    rw [← hout, apply3_rotMat_inv3]
  rw [hB, apply3_inv3_rotMat]

/-- Claim C6 is a code bug: `scale_and_crop_image` never checks the resized
size against `crop`.  A 100x100 RGB image with `scale=1, crop=256` silently
yields a `(3, 78, 78)` array instead of failing, while a 512x512 image with
`scale=2, crop=256` yields the expected `(3, 256, 256)`. -/
theorem C6_scale_and_crop_silent_shrink :
    scale_and_crop_shape 100 100 3 1 256 = (3, 78, 78) ∧
    scale_and_crop_shape 512 512 3 2 256 = (3, 256, 256) := by
  constructor <;> rfl

/-- Claim C5 is a code bug: the load phase of `CARLA_Data2.__init__`
performs no validation, so a cache whose `steer` field has one entry while
every other field has two is accepted silently; the dataset reports
`len() = 2` with misaligned fields instead of failing. -/
theorem C5_mismatched_cache_loaded :
    dataLen (loadPreload emptyState badDict) = 2 ∧
    (loadPreload emptyState badDict).steer.length = 1 ∧
    (loadPreload emptyState badDict).front.length ≠
      (loadPreload emptyState badDict).steer.length := by
  refine ⟨rfl, rfl, by decide⟩

/-- Claim C1 as stated is false: with `N = 5`, `seq_len = 1`, `pred_len = 4`
the floor formula gives `-1`, but the indexer produces no window at all
(`range` of a negative count is empty), so the count is not the floor
value. -/
theorem C1_counterexample :
    (routeWindows 5 1 4).length = 0 ∧ num_seq 5 4 1 = -1 := by
  decide

/-- Claim C1 (amended): for positive `seq_len` the indexer produces
`max(floor((N - pred_len - 2) / seq_len), 0)` windows -- in particular zero
windows, not a negative count, whenever `N < pred_len + 2` -- and every
window `w` below that count consists of the 1-indexed 4-digit zero-padded
front frames `w*seq_len+1 .. w*seq_len+seq_len` with the next `pred_len`
frames as its future span.  The count equation holds for every route; only
the per-window description is conditional on the window existing.
(`seq_len = 0` raises `ZeroDivisionError` in Python and is excluded.) -/
theorem C1_window_indexing (n s p : ℕ) (hs : 0 < s) :
    ((routeWindows n s p).length : ℤ) = max (num_seq n p s) 0 ∧
    ∀ w : ℕ, w < (routeWindows n s p).length →
      (routeWindows n s p)[w]? =
        some { fronts := (List.range s).map (fun i => frameName (w * s + 1 + i))
               futures := (List.range p).map (fun i => w * s + 1 + s + i) } := by
  constructor
  · unfold routeWindows
    rw [List.length_map, List.length_range, Int.toNat_eq_max]
  · intro w hw
    rw [List.getElem?_eq_getElem hw]
    unfold routeWindows
    simp [List.getElem_map, List.getElem_range]

/-- Witness for C1: a route with 10 front frames and `seq_len=1, pred_len=4`
has 4 windows and window 3 is front frame `0004.png` with future frames
5 to 8 (`0005.png .. 0008.png`); a route with only 5 front frames has 0
windows, matching `max(-1, 0)`. -/
theorem C1_window_indexing_witness :
    (((routeWindows 10 1 4).length : ℤ) = max (num_seq 10 4 1) 0 ∧
      (routeWindows 10 1 4)[3]? =
        some { fronts := (List.range 1).map (fun i => frameName (3 * 1 + 1 + i))
               futures := (List.range 4).map (fun i => 3 * 1 + 1 + 1 + i) }) ∧
    ((routeWindows 5 1 4).length : ℤ) = max (num_seq 5 4 1) 0 :=
  ⟨⟨(C1_window_indexing 10 1 4 (by decide)).1,
    (C1_window_indexing 10 1 4 (by decide)).2 3 (by decide)⟩,
   (C1_window_indexing 5 1 4 (by decide)).1⟩

theorem range_map_getD (l : List α) (d : α) :
    (List.range l.length).map (fun j => l.getD j d) = l := by
  apply List.ext_getElem
  · simp
  · intro j h1 h2
    simp only [List.getElem_map, List.getElem_range, List.getD_eq_getElem?_getD,
      List.getElem?_eq_getElem h2]
    rfl

/-- Claim C4: when the model returns `pred_len` predicted waypoints for
every window of the batch, entry `i` emitted by `Engine.get_labels` has
waypoint field `(0.0, 0.0)` followed by exactly the `pred_len` predicted
pairs, and `x`, `y`, `theta` are zero-filled lists of length `pred_len+1`. -/
theorem C4_label_entry (pred_len : ℕ) (items : List SSDItem)
    (preds : List (List (ℝ × ℝ))) (i : ℕ)
    (hi : i < preds.length)
    (hlen : ∀ pr ∈ preds, pr.length = pred_len) :
    ((getLabelsBatch pred_len items preds)[i]?).map LabelEntry.waypoints =
      some ((0, 0) :: preds.getD i []) ∧
    ((getLabelsBatch pred_len items preds)[i]?).map LabelEntry.x =
      some (List.replicate (pred_len + 1) 0) ∧
    ((getLabelsBatch pred_len items preds)[i]?).map LabelEntry.y =
      some (List.replicate (pred_len + 1) 0) ∧
    ((getLabelsBatch pred_len items preds)[i]?).map LabelEntry.theta =
      some (List.replicate (pred_len + 1) 0) := by
  have hhead : (preds.headD []).length = pred_len := by
    rcases preds with _ | ⟨p0, rest⟩
    · simp at hi
    · exact hlen p0 (by simp)
  have hpred : (preds.getD i []).length = pred_len := by
    rw [List.getD_eq_getElem?_getD, List.getElem?_eq_getElem hi]
    exact hlen _ (List.getElem_mem hi)
  have hidx : (getLabelsBatch pred_len items preds)[i]? =
      some (mkLabelEntry pred_len
        (items.getD i { ssd_front := "", x_command := 0, y_command := 0 })
        ((preds.headD []).length) (preds.getD i [])) := by
    unfold getLabelsBatch
    rw [List.getElem?_map, List.getElem?_eq_getElem (by simpa using hi)]
    simp [List.getElem_range]
  rw [hidx]
  refine ⟨?_, rfl, rfl, rfl⟩
  simp only [Option.map_some', Option.some.injEq, mkLabelEntry]
  rw [hhead, ← hpred, range_map_getD]

/-- Witness for C4: the model stub returning `[(1.0, 0.0), (2.0, 0.0)]`
(`pred_len = 2`) yields the waypoint field `[(0,0), (1,0), (2,0)]` and
zero-filled pose fields of length 3. -/
theorem C4_label_entry_witness :
    0 < ([[((1 : ℝ), (0 : ℝ)), (2, 0)]] : List (List (ℝ × ℝ))).length ∧
    (∀ pr ∈ ([[((1 : ℝ), (0 : ℝ)), (2, 0)]] : List (List (ℝ × ℝ))), pr.length = 2) ∧
    ((getLabelsBatch 2 [{ ssd_front := "f.png", x_command := 5, y_command := 6 }]
        [[((1 : ℝ), (0 : ℝ)), (2, 0)]])[0]?).map LabelEntry.waypoints =
      some [(0, 0), (1, 0), (2, 0)] ∧
    ((getLabelsBatch 2 [{ ssd_front := "f.png", x_command := 5, y_command := 6 }]
        [[((1 : ℝ), (0 : ℝ)), (2, 0)]])[0]?).map LabelEntry.x =
      some (List.replicate 3 0) := by
  have h := C4_label_entry 2 [{ ssd_front := "f.png", x_command := 5, y_command := 6 }]
    [[((1 : ℝ), (0 : ℝ)), (2, 0)]] 0 (by decide)
    (by intro pr hpr; simp only [List.mem_singleton] at hpr; rw [hpr]; rfl)
  exact ⟨by decide, by intro pr hpr; simp only [List.mem_singleton] at hpr; rw [hpr]; rfl,
    h.1, h.2.1⟩

/-- Claim C8 as stated is false: `CARLA_Data.__getitem__` does not return
the cached waypoints unchanged — the fixed matrix `M = [[0,1],[-1,0]]` is
applied.  The cached waypoint `(1, 0)` comes back as `(0, -1)`, and the
cached goal point `(3, 4)` comes back as `(4, -3)`. -/
theorem C8_counterexample :
    (getitem1 pseudoState 0).map Sample1.waypoints ≠ some [((1 : ℝ), (0 : ℝ))] ∧
    (getitem1 pseudoState 0).map Sample1.waypoints = some [((0 : ℝ), (-1 : ℝ))] ∧
    (getitem1 pseudoState 0).map Sample1.target_point = some ((4 : ℝ), (-3 : ℝ)) := by
  have hW : (getitem1 pseudoState 0).map Sample1.waypoints =
      some [((0 : ℝ) * 1 + 1 * 0, (-1 : ℝ) * 1 + 0 * 0)] := rfl
  have hT : (getitem1 pseudoState 0).map Sample1.target_point =
      some ((0 : ℝ) * 3 + 1 * 4, (-1 : ℝ) * 3 + 0 * 4) := rfl
  refine ⟨?_, ?_, ?_⟩
  · rw [hW]
    intro hcontra
    simp only [Option.some.injEq, List.cons.injEq, Prod.mk.injEq] at hcontra
    rcases hcontra with ⟨⟨h1, _⟩, _⟩
    norm_num at h1
  · rw [hW]
    norm_num
  · rw [hT]
    norm_num

/-- Claim C8 (amended): for every valid index, the reduced pseudo-label
variant returns the cached waypoints with the fixed axis-swap matrix
`M = [[0,1],[-1,0]]` applied to every pair `(x, y) -> (y, -x)` (truncated
to `pred_len + 1` entries), and the cached goal point with the same matrix
applied; no other (ego-frame) transform is performed. -/
theorem C8_reduced_variant_transform (st : DState1) (index : ℤ)
    (sF : List String) (wps : List (ℝ × ℝ)) (tg : ℝ × ℝ)
    (hF : pyIdx st.front index = some sF)
    (hW : pyIdx st.waypoints index = some wps)
    (hT : pyIdx st.target index = some tg)
    (hl : st.cfg.seq_len ≤ sF.length) :
    getitem1 st index = some
      { fronts := (List.range st.cfg.seq_len).map (fun i => procImg st.cfg (sF.getD i ""))
        waypoints := (wps.map (fun q => (q.2, -q.1))).take (st.cfg.pred_len + 1)
        target_point := (tg.2, -tg.1) } := by
  have hM : ∀ q : ℝ × ℝ, mat2App mat2 q = (q.2, -q.1) := by
    intro q
    simp only [mat2App, mat2, Prod.mk.injEq]
    constructor <;> ring
  unfold getitem1
  rw [hF, hW, hT]
  dsimp only
  rw [if_pos hl]
  rw [funext hM]

/-- Witness for C8: on the one-entry pseudo-label state the returned sample
is the cached data with the axis swap applied. -/
theorem C8_reduced_variant_transform_witness :
    pyIdx pseudoState.front 0 = some ["w1.png"] ∧
    pyIdx pseudoState.waypoints 0 = some [((1 : ℝ), (0 : ℝ))] ∧
    pyIdx pseudoState.target 0 = some ((3 : ℝ), (4 : ℝ)) ∧
    pseudoState.cfg.seq_len ≤ (["w1.png"] : List String).length ∧
    getitem1 pseudoState 0 = some
      { fronts := (List.range pseudoState.cfg.seq_len).map
          (fun i => procImg pseudoState.cfg ((["w1.png"] : List String).getD i ""))
        waypoints := (([((1 : ℝ), (0 : ℝ))].map (fun q => (q.2, -q.1))).take
          (pseudoState.cfg.pred_len + 1))
        target_point := ((((3 : ℝ), (4 : ℝ)) : ℝ × ℝ).2, -(((3 : ℝ), (4 : ℝ)) : ℝ × ℝ).1) } :=
  ⟨rfl, rfl, rfl, by decide,
    C8_reduced_variant_transform pseudoState 0 ["w1.png"] [((1 : ℝ), (0 : ℝ))]
      ((3 : ℝ), (4 : ℝ)) rfl rfl rfl (by decide)⟩

/-- Claim C7 as stated is false: with `ignore_sides` and `ignore_rear` set,
a successful get still returns the keys `lefts`, `rights`, `rears` — mapped
to empty lists — rather than omitting them. -/
theorem C7_counterexample :
    (getitem2 smallState 0).1.isSome = true ∧
    ((getitem2 smallState 0).1.getD []).lookup "lefts" = some (SVal.imgs []) ∧
    ((getitem2 smallState 0).1.getD []).lookup "rights" = some (SVal.imgs []) ∧
    ((getitem2 smallState 0).1.getD []).lookup "rears" = some (SVal.imgs []) :=
  ⟨rfl, rfl, rfl, rfl⟩

/-- Claim C7 (amended): on a well-formed state, a disabled camera view is
returned as an empty placeholder — keys `lefts`/`rights` (under
`ignore_sides`) and `rears` (under `ignore_rear`) are present and map to
empty lists; they are not absent from the sample. -/
theorem C7_disabled_views_empty (st : DState) (index : ℤ)
    (hwf : WFState st) (hidx : (pyIdx st.front index).isSome = true) :
    (getitem2 st index).1.isSome = true ∧
    (st.cfg.ignore_sides = true →
      ((getitem2 st index).1.getD []).lookup "lefts" = some (SVal.imgs []) ∧
      ((getitem2 st index).1.getD []).lookup "rights" = some (SVal.imgs [])) ∧
    (st.cfg.ignore_rear = true →
      ((getitem2 st index).1.getD []).lookup "rears" = some (SVal.imgs [])) := by
  obtain ⟨m, kTh, sTh, sample, hm, hTh, hk, hlen, heq, sF, sL, sR, sRe, sX, sY,
    xc, yc, sv, tv, bv, cv, vv, hX, hY, hlX, hlY, hsample⟩ :=
    getitem2_success st index hwf hidx
  subst hsample
  have h1 : (getitem2 st index).1 = some (mkSample2 st.cfg sF sL sR sRe sX sY
      (fixSeg sTh 0 (m + 1)) m xc yc sv tv bv cv vv) := by rw [heq]
  refine ⟨by rw [h1]; rfl, ?_, ?_⟩
  · intro hside
    rw [h1]
    simp only [Option.getD_some, mkSample2]
    rw [hside]
    exact ⟨rfl, rfl⟩
  · intro hrear
    rw [h1]
    simp only [Option.getD_some, mkSample2]
    rw [hrear]
    rfl

/-- Witness for C7 (amended) at `smallState`, index 0. -/
theorem C7_disabled_views_empty_witness :
    WFState smallState ∧ (pyIdx smallState.front 0).isSome = true ∧
    ((getitem2 smallState 0).1.isSome = true ∧
     (smallState.cfg.ignore_sides = true →
       ((getitem2 smallState 0).1.getD []).lookup "lefts" = some (SVal.imgs []) ∧
       ((getitem2 smallState 0).1.getD []).lookup "rights" = some (SVal.imgs [])) ∧
     (smallState.cfg.ignore_rear = true →
       ((getitem2 smallState 0).1.getD []).lookup "rears" = some (SVal.imgs []))) :=
  ⟨by unfold WFState; decide, rfl,
    C7_disabled_views_empty smallState 0 (by unfold WFState; decide) rfl⟩

theorem getitem2core_none (st : DState) (index : ℤ)
    (hf : pyIdx st.front index = none) :
    getitem2core st index = (none, st.theta) := by
  unfold getitem2core
  rw [hf]

/-- Claim C9 as stated is false: index `-1` lies outside `[0, len())`, yet
`get(-1)` succeeds (Python list indexing wraps negative indices). -/
theorem C9_counterexample :
    dataLen smallState = 1 ∧ (getitem2 smallState (-1)).1.isSome = true :=
  ⟨rfl, rfl⟩

/-- Claim C9 (amended): on a well-formed state, `get(index)` fails exactly
for indices outside `[-len(), len())`: too-large and too-negative indices
raise `IndexError`, but negative indices in `[-len(), -1]` wrap around
Python-style and return a sample. -/
theorem C9_index_range (st : DState) (hwf : WFState st) (index : ℤ) :
    (getitem2 st index).1.isSome = true ↔
      (-(dataLen st : ℤ) ≤ index ∧ index < (dataLen st : ℤ)) := by
  constructor
  · intro h
    by_contra hc
    have hf : pyIdx st.front index = none := (pyIdx_none_iff _ _).mpr hc
    have hnone : (getitem2 st index).1 = none := by
      unfold getitem2
      rw [getitem2core_none st index hf]
    rw [hnone] at h
    simp at h
  · intro h
    have hidx : (pyIdx st.front index).isSome = true := (pyIdx_isSome_iff _ _).mpr h
    obtain ⟨m, kTh, sTh, sample, hm, hTh, hk, hlen, heq, _⟩ :=
      getitem2_success st index hwf hidx
    rw [heq]
    rfl

/-- Witness for C9 (amended): on the one-window `smallState`, index 2 is
out of range on both sides of the equivalence. -/
theorem C9_index_range_witness :
    WFState smallState ∧
    ((getitem2 smallState 2).1.isSome = true ↔
      (-(dataLen smallState : ℤ) ≤ 2 ∧ (2 : ℤ) < (dataLen smallState : ℤ))) :=
  ⟨by unfold WFState; decide,
    C9_index_range smallState (by unfold WFState; decide) 2⟩

/-- Claim C10 as stated is false: a get on a valid index can mutate the
stored `theta` field in place — on `nanState` (whose window-0 past/current
heading is NaN), `get(0)` overwrites the NaN with 0 through the alias
`seq_theta = self.theta[index]`. -/
theorem C10_counterexample :
    (getitem2 nanState 0).1.isSome = true ∧
    (getitem2 nanState 0).2.theta = [[some 0, some 0]] ∧
    (getitem2 nanState 0).2 ≠ nanState := by
  refine ⟨rfl, rfl, ?_⟩
  intro hcontra
  have hth := congrArg DState.theta hcontra
  have hbad : ([[some 0, some 0]] : List (List FV)) = [[none, some 0]] := by
    calc ([[some 0, some 0]] : List (List FV))
        = (getitem2 nanState 0).2.theta := rfl
      _ = nanState.theta := hth
      _ = [[none, some 0]] := rfl
  simp at hbad

/-- Claim C10 (amended): a get never modifies any stored field except
`theta`; `theta` is only modified by overwriting NaN past/current headings
of the accessed window with 0, so whenever those headings are all non-NaN
(or the access raises before reaching them) the state is left unchanged. -/
theorem C10_state_effect (st : DState) (index : ℤ) :
    ((getitem2 st index).2.cfg = st.cfg ∧
     (getitem2 st index).2.front = st.front ∧
     (getitem2 st index).2.left = st.left ∧
     (getitem2 st index).2.right = st.right ∧
     (getitem2 st index).2.rear = st.rear ∧
     (getitem2 st index).2.x = st.x ∧
     (getitem2 st index).2.y = st.y ∧
     (getitem2 st index).2.x_command = st.x_command ∧
     (getitem2 st index).2.y_command = st.y_command ∧
     (getitem2 st index).2.steer = st.steer ∧
     (getitem2 st index).2.throttle = st.throttle ∧
     (getitem2 st index).2.brake = st.brake ∧
     (getitem2 st index).2.command = st.command ∧
     (getitem2 st index).2.velocity = st.velocity) ∧
    ((∀ l, pyIdx st.theta index = some l →
        ∀ j, j < st.cfg.seq_len → l[j]? ≠ some none) →
      (getitem2 st index).2 = st) := by
  constructor
  · exact ⟨rfl, rfl, rfl, rfl, rfl, rfl, rfl, rfl, rfl, rfl, rfl, rfl, rfl, rfl⟩
  · intro h
    have hθ : (getitem2core st index).2 = st.theta := by
      rcases hF : pyIdx st.front index with _ | sF
      · rw [getitem2core_none st index hF]
      rcases hL : pyIdx st.left index with _ | sL
      · unfold getitem2core
        rw [hF, hL]
      rcases hR : pyIdx st.right index with _ | sR
      · unfold getitem2core
        rw [hF, hL, hR]
      rcases hRe : pyIdx st.rear index with _ | sRe
      · unfold getitem2core
        rw [hF, hL, hR, hRe]
      rcases hX : pyIdx st.x index with _ | sX
      · unfold getitem2core
        rw [hF, hL, hR, hRe, hX]
      rcases hY : pyIdx st.y index with _ | sY
      · unfold getitem2core
        rw [hF, hL, hR, hRe, hX, hY]
      rcases hTh : pyIdx st.theta index with _ | sTh
      · unfold getitem2core
        rw [hF, hL, hR, hRe, hX, hY, hTh]
      rcases hk : pyNorm st.theta.length index with _ | kTh
      · unfold getitem2core
        rw [hF, hL, hR, hRe, hX, hY, hTh, hk]
      unfold getitem2core
      rw [hF, hL, hR, hRe, hX, hY, hTh, hk]
      dsimp only
      rw [itemLoop_fst_id st.cfg.ignore_sides st.cfg.ignore_rear sF sL sR sRe
        st.cfg.seq_len 0 sTh (fun j hj => by simpa using h sTh hTh j hj)]
      exact set_of_getElem?_eq st.theta kTh sTh
        (by rw [← pyIdx_of_norm hk]; exact hTh)
    unfold getitem2
    dsimp only
    rw [hθ]

/-- Witness for C10 (amended): on `smallState` (finite headings) a get at
index 0 leaves the state bit-identical. -/
theorem C10_state_effect_witness :
    (∀ l, pyIdx smallState.theta 0 = some l →
        ∀ j, j < smallState.cfg.seq_len → l[j]? ≠ some none) ∧
    (getitem2 smallState 0).2 = smallState := by
  have hyp : ∀ l, pyIdx smallState.theta 0 = some l →
      ∀ j, j < smallState.cfg.seq_len → l[j]? ≠ some none := by
    intro l hl j hj
    have hval : pyIdx smallState.theta 0 = some [some 0, some 0] := rfl
    rw [hval] at hl
    have hl2 := (Option.some.inj hl).symm
    subst hl2
    rw [show smallState.cfg.seq_len = 1 from rfl] at hj
    have hj0 : j = 0 := by omega
    subst hj0
    simp
  exact ⟨hyp, (C10_state_effect smallState 0).2 hyp⟩

/-! ### Helper lemmas: the indexer's window structure -/

theorem buildWindow_inv {meas : List Meas} {rd : String} {s p seq : ℕ} {w : BWin}
    (h : buildWindow meas rd s p seq = some w) :
    ∃ pastM futM : List Meas,
      pastM.length = s ∧ futM.length = p ∧
      (∀ mr ∈ pastM, mr ∈ meas) ∧ (∀ mr ∈ futM, mr ∈ meas) ∧
      w.fronts.length = s ∧ w.lefts.length = s ∧
      w.rights.length = s ∧ w.rears.length = s ∧
      w.xs = pastM.map (fun mr => mr.x) ++ futM.map (fun mr => mr.x) ∧
      w.ys = pastM.map (fun mr => mr.y) ++ futM.map (fun mr => mr.y) ∧
      w.thetas = pastM.map (fun mr => mr.theta) ++ futM.map (fun mr => nanFix mr.theta) := by
  unfold buildWindow at h
  rcases hpast : optMap (fun i => meas[seq * s + i]?) 0 s with _ | pastM
  · rw [hpast] at h
    simp at h
  rcases hfut : optMap (fun i => meas[seq * s + s + i]?) 0 p with _ | futM
  · rw [hpast, hfut] at h
    simp at h
  rw [hpast, hfut] at h
  dsimp only at h
  rcases hlast : pastM.getLast? with _ | last
  · rw [hlast] at h
    simp at h
  rw [hlast] at h
  have h2 := Option.some.inj h
  subst h2
  obtain ⟨hplen, hpall⟩ := optMap_eq_some _ _ _ hpast
  obtain ⟨hflen, hfall⟩ := optMap_eq_some _ _ _ hfut
  refine ⟨pastM, futM, hplen, hflen, ?_, ?_, by simp, by simp, by simp, by simp,
    rfl, rfl, rfl⟩
  · intro mr hmr
    obtain ⟨j, hj⟩ := List.getElem?_of_mem hmr
    have hjlt : j < pastM.length := (List.getElem?_eq_some.mp hj).1
    obtain ⟨b, hb1, hb2⟩ := hpall j (by omega)
    rw [hj] at hb2
    have hbm := Option.some.inj hb2
    subst hbm
    exact List.getElem?_mem hb1
  · intro mr hmr
    obtain ⟨j, hj⟩ := List.getElem?_of_mem hmr
    have hjlt : j < futM.length := (List.getElem?_eq_some.mp hj).1
    obtain ⟨b, hb1, hb2⟩ := hfall j (by omega)
    rw [hj] at hb2
    have hbm := Option.some.inj hb2
    subst hbm
    exact List.getElem?_mem hb1

theorem buildRoute_windows {meas : List Meas} {rd : String} {n s p : ℕ}
    {ws : List BWin} (h : buildRoute meas rd n s p = some ws) :
    ∀ w ∈ ws, ∃ seq, buildWindow meas rd s p seq = some w := by
  intro w hw
  obtain ⟨hlen, hall⟩ := optMap_eq_some _ _ _ h
  obtain ⟨j, hj⟩ := List.getElem?_of_mem hw
  have hjlt : j < ws.length := (List.getElem?_eq_some.mp hj).1
  obtain ⟨b, hb1, hb2⟩ := hall j (by omega)
  rw [hj] at hb2
  have hbm := Option.some.inj hb2
  subst hbm
  exact ⟨0 + j, hb1⟩

/-- A freshly indexed route always yields a well-formed dataset state. -/
theorem buildRoute_WF (meas : List Meas) (rd : String) (n : ℕ) (cfg : Config)
    (ws : List BWin)
    (hbuild : buildRoute meas rd n cfg.seq_len cfg.pred_len = some ws)
    (hs : 0 < cfg.seq_len) :
    WFState (mkState cfg ws) := by
  have hwin := buildRoute_windows hbuild
  refine ⟨hs, by simp [mkState], by simp [mkState], by simp [mkState],
    by simp [mkState], by simp [mkState], by simp [mkState], by simp [mkState],
    by simp [mkState], by simp [mkState], by simp [mkState], by simp [mkState],
    by simp [mkState], by simp [mkState], ?_, ?_, ?_, ?_, ?_, ?_, ?_⟩
  · intro l hl
    obtain ⟨w, hw, hwl⟩ := List.mem_map.mp hl
    obtain ⟨seq, hbw⟩ := hwin w hw
    obtain ⟨pastM, futM, hp, hf, _, _, hF, _, _, _, _, _, _⟩ := buildWindow_inv hbw
    subst hwl
    exact hF.ge
  · intro _ l hl
    obtain ⟨w, hw, hwl⟩ := List.mem_map.mp hl
    obtain ⟨pastM, futM, hp, hf, _, _, _, hL, _, _, _, _, _⟩ :=
      buildWindow_inv (hwin w hw).choose_spec
    subst hwl
    exact hL.ge
  · intro _ l hl
    obtain ⟨w, hw, hwl⟩ := List.mem_map.mp hl
    obtain ⟨pastM, futM, hp, hf, _, _, _, _, hR, _, _, _, _⟩ :=
      buildWindow_inv (hwin w hw).choose_spec
    subst hwl
    exact hR.ge
  · intro _ l hl
    obtain ⟨w, hw, hwl⟩ := List.mem_map.mp hl
    obtain ⟨pastM, futM, hp, hf, _, _, _, _, _, hRe, _, _, _⟩ :=
      buildWindow_inv (hwin w hw).choose_spec
    subst hwl
    exact hRe.ge
  · intro l hl
    obtain ⟨w, hw, hwl⟩ := List.mem_map.mp hl
    obtain ⟨pastM, futM, hp, hf, _, _, _, _, _, _, hX, _, _⟩ :=
      buildWindow_inv (hwin w hw).choose_spec
    subst hwl
    rw [hX]
    simp only [List.length_append, List.length_map, hp, hf]
    exact le_rfl
  · intro l hl
    obtain ⟨w, hw, hwl⟩ := List.mem_map.mp hl
    obtain ⟨pastM, futM, hp, hf, _, _, _, _, _, _, _, hY, _⟩ :=
      buildWindow_inv (hwin w hw).choose_spec
    subst hwl
    rw [hY]
    simp only [List.length_append, List.length_map, hp, hf]
    exact le_rfl
  · intro l hl
    obtain ⟨w, hw, hwl⟩ := List.mem_map.mp hl
    obtain ⟨pastM, futM, hp, hf, _, _, _, _, _, _, _, _, hTh⟩ :=
      buildWindow_inv (hwin w hw).choose_spec
    subst hwl
    rw [hTh]
    simp only [List.length_append, List.length_map, hp, hf]
    exact le_rfl

theorem sampleWaypoints_mkSample2 (cfg : Config) (sF sL sR sRe : List String)
    (sX sY fixedTh : List FV) (m : ℕ) (xc yc sv tv bv cv vv : FV) :
    sampleWaypoints (mkSample2 cfg sF sL sR sRe sX sY fixedTh m xc yc sv tv bv cv vv) =
      (List.range (m + 1 + cfg.pred_len)).map (fun j =>
        localWaypointF (fixedTh.getD j none) (sX.getD j none) (sY.getD j none)
          (fixedTh.getD m none) (sX.getD m none) (sY.getD m none)) := rfl


theorem getD_isSome_of_all (l : List FV) (j : ℕ) (hj : j < l.length)
    (hall : ∀ v ∈ l, v.isSome = true) : (l.getD j none).isSome = true := by
  rw [List.getD_eq_getElem?_getD, List.getElem?_eq_getElem hj]
  exact hall _ (List.getElem_mem _)

/-- A heading list built by the indexer (raw past headings, NaN-fixed
future headings) is entirely finite after `__getitem__`'s past fix. -/
theorem fixSeg_getD_isSome_of_struct (sTh : List FV) (pastT futT : List Meas)
    (m p j2 : ℕ)
    (hstruct : sTh = pastT.map (fun mr => mr.theta) ++
      futT.map (fun mr => nanFix mr.theta))
    (hpTlen : pastT.length = m + 1)
    (hlen : m + 1 + p ≤ sTh.length)
    (hj2 : j2 < m + 1 + p) :
    ((fixSeg sTh 0 (m + 1)).getD j2 none).isSome = true := by
  rw [List.getD_eq_getElem?_getD, fixSeg_getElem?]
  by_cases hcase : j2 < m + 1
  · rw [if_pos ⟨by omega, by omega⟩,
      List.getElem?_eq_getElem (by omega : j2 < sTh.length)]
    simp only [Option.map_some', Option.getD_some]
    exact nanFix_isSome _
  · rw [if_neg (by omega)]
    rw [hstruct, List.getElem?_append_right (by rw [List.length_map]; omega)]
    have hlt : j2 - (pastT.map (fun mr => mr.theta)).length <
        (futT.map (fun mr => nanFix mr.theta)).length := by
      rw [List.length_map, List.length_map, hpTlen]
      rw [hstruct, List.length_append, List.length_map, List.length_map] at hlen
      omega
    rw [List.getElem?_eq_getElem hlt]
    simp only [List.getElem_map, Option.getD_some]
    exact nanFix_isSome _

/-- Every element of a position list built by the indexer from records
with finite positions is finite. -/
theorem built_positions_isSome (meas pastX futX : List Meas) (sX : List FV)
    (proj : Meas → FV)
    (hEq : sX = pastX.map proj ++ futX.map proj)
    (hpmem : ∀ mr ∈ pastX, mr ∈ meas) (hfmem : ∀ mr ∈ futX, mr ∈ meas)
    (hfin : ∀ mr ∈ meas, (proj mr).isSome = true) :
    ∀ v ∈ sX, v.isSome = true := by
  intro v hv
  rw [hEq] at hv
  rcases List.mem_append.mp hv with hv2 | hv2
  · obtain ⟨mr, hmr, hmeq⟩ := List.mem_map.mp hv2
    rw [← hmeq]
    exact hfin mr (hpmem mr hmr)
  · obtain ⟨mr, hmr, hmeq⟩ := List.mem_map.mp hv2
    rw [← hmeq]
    exact hfin mr (hfmem mr hmr)

/-- Claim C3: for every window of an indexed route whose measurement
records all have finite positions — headings may be NaN in any past/current
or future step — a successful get returns a waypoint sequence of length
`seq_len + pred_len` that is entirely finite: future NaN headings were
replaced with 0 when the route was indexed, past/current NaN headings are
replaced with 0 by `__getitem__` before the transform runs, and the
transform maps finite inputs to finite outputs. -/
theorem C3_nan_headings_no_poison
    (meas : List Meas) (rd : String) (n : ℕ) (cfg : Config) (ws : List BWin)
    (hbuild : buildRoute meas rd n cfg.seq_len cfg.pred_len = some ws)
    (hfin : ∀ mr ∈ meas, mr.x.isSome = true ∧ mr.y.isSome = true)
    (hs : 0 < cfg.seq_len)
    (index : ℤ)
    (hidx : (pyIdx (mkState cfg ws).front index).isSome = true) :
    (getitem2 (mkState cfg ws) index).1.isSome = true ∧
    (sampleWaypoints ((getitem2 (mkState cfg ws) index).1.getD [])).length =
      cfg.seq_len + cfg.pred_len ∧
    ∀ q ∈ sampleWaypoints ((getitem2 (mkState cfg ws) index).1.getD []),
      q.1.isSome = true ∧ q.2.isSome = true := by
  have hwf := buildRoute_WF meas rd n cfg ws hbuild hs
  obtain ⟨m, kTh, sTh, sample, hm, hTh, hk, hlen, heq, sF, sL, sR, sRe, sX, sY,
    xc, yc, sv, tv, bv, cv, vv, hX, hY, hlX, hlY, hsample⟩ :=
    getitem2_success (mkState cfg ws) index hwf hidx
  subst hsample
  have h1 : (getitem2 (mkState cfg ws) index).1 =
      some (mkSample2 (mkState cfg ws).cfg sF sL sR sRe sX sY
        (fixSeg sTh 0 (m + 1)) m xc yc sv tv bv cv vv) := by rw [heq]
  clear heq hwf hidx hk
  have hm' : cfg.seq_len = m + 1 := hm
  have hlen' : m + 1 + cfg.pred_len ≤ sTh.length := hlen
  have hlX' : m + 1 + cfg.pred_len ≤ sX.length := hlX
  have hlY' : m + 1 + cfg.pred_len ≤ sY.length := hlY
  clear hm hlen hlX hlY
  -- structure of the cached heading list
  have hThmem : sTh ∈ (mkState cfg ws).theta := pyIdx_mem hTh
  rw [show (mkState cfg ws).theta = ws.map (fun w => w.thetas) from rfl] at hThmem
  obtain ⟨wT, hwT, hwTeq⟩ := List.mem_map.mp hThmem
  obtain ⟨seqT, hbwT⟩ := buildRoute_windows hbuild wT hwT
  obtain ⟨pastT, futT, hpTlen, hfTlen, hpTmem, hfTmem, _, _, _, _, _, _, hThEq⟩ :=
    buildWindow_inv hbwT
  have hThStruct : sTh =
      pastT.map (fun mr => mr.theta) ++ futT.map (fun mr => nanFix mr.theta) := by
    rw [← hwTeq, hThEq]
  have hpTlen' : pastT.length = m + 1 := by rw [hpTlen, hm']
  -- finiteness of the cached positions
  have hXmem : sX ∈ (mkState cfg ws).x := pyIdx_mem hX
  rw [show (mkState cfg ws).x = ws.map (fun w => w.xs) from rfl] at hXmem
  obtain ⟨wX, hwX, hwXeq⟩ := List.mem_map.mp hXmem
  obtain ⟨seqX, hbwX⟩ := buildRoute_windows hbuild wX hwX
  obtain ⟨pastX, futX, _, _, hpXmem, hfXmem, _, _, _, _, hXsEq, _, _⟩ :=
    buildWindow_inv hbwX
  have hXel : ∀ v ∈ sX, v.isSome = true :=
    built_positions_isSome meas pastX futX sX (fun mr => mr.x)
      (by rw [← hwXeq, hXsEq]) hpXmem hfXmem (fun mr hmr => (hfin mr hmr).1)
  have hYmem : sY ∈ (mkState cfg ws).y := pyIdx_mem hY
  rw [show (mkState cfg ws).y = ws.map (fun w => w.ys) from rfl] at hYmem
  obtain ⟨wY, hwY, hwYeq⟩ := List.mem_map.mp hYmem
  obtain ⟨seqY, hbwY⟩ := buildRoute_windows hbuild wY hwY
  obtain ⟨pastY, futY, _, _, hpYmem, hfYmem, _, _, _, _, _, hYsEq, _⟩ :=
    buildWindow_inv hbwY
  have hYel : ∀ v ∈ sY, v.isSome = true :=
    built_positions_isSome meas pastY futY sY (fun mr => mr.y)
      (by rw [← hwYeq, hYsEq]) hpYmem hfYmem (fun mr hmr => (hfin mr hmr).2)
  clear hbuild hfin hTh hX hY hThmem hXmem hYmem hbwT hbwX hbwY hwTeq hwXeq
    hwYeq hwT hwX hwY hThEq hXsEq hYsEq
  refine ⟨by rw [h1]; rfl, ?_, ?_⟩
  · rw [h1]
    simp only [Option.getD_some, sampleWaypoints_mkSample2, List.length_map,
      List.length_range]
    rw [hm']
    exact rfl
  · intro q hq
    rw [h1] at hq
    simp only [Option.getD_some, sampleWaypoints_mkSample2] at hq
    obtain ⟨j, hjmem, hqe⟩ := List.mem_map.mp hq
    clear hq
    rw [List.mem_range] at hjmem
    have hjm : j < m + 1 + cfg.pred_len := hjmem
    clear hjmem
    have hm1le : m < m + 1 + cfg.pred_len :=
      lt_of_lt_of_le (Nat.lt_succ_self m) (Nat.le_add_right (m + 1) cfg.pred_len)
    have ha1 := fixSeg_getD_isSome_of_struct sTh pastT futT m cfg.pred_len j
      hThStruct hpTlen' hlen' hjm
    have he1 := fixSeg_getD_isSome_of_struct sTh pastT futT m cfg.pred_len m
      hThStruct hpTlen' hlen' hm1le
    have ha2 := getD_isSome_of_all sX j (lt_of_lt_of_le hjm hlX') hXel
    have ha3 := getD_isSome_of_all sY j (lt_of_lt_of_le hjm hlY') hYel
    have he2 := getD_isSome_of_all sX m (lt_of_lt_of_le hm1le hlX') hXel
    have he3 := getD_isSome_of_all sY m (lt_of_lt_of_le hm1le hlY') hYel
    obtain ⟨a1, hva1⟩ := Option.isSome_iff_exists.mp ha1
    obtain ⟨a2, hva2⟩ := Option.isSome_iff_exists.mp ha2
    obtain ⟨a3, hva3⟩ := Option.isSome_iff_exists.mp ha3
    obtain ⟨e1, hve1⟩ := Option.isSome_iff_exists.mp he1
    obtain ⟨e2, hve2⟩ := Option.isSome_iff_exists.mp he2
    obtain ⟨e3, hve3⟩ := Option.isSome_iff_exists.mp he3
    have hgoal : (localWaypointF ((fixSeg sTh 0 (m + 1)).getD j none)
        (sX.getD j none) (sY.getD j none) ((fixSeg sTh 0 (m + 1)).getD m none)
        (sX.getD m none) (sY.getD m none)).1.isSome = true ∧
        (localWaypointF ((fixSeg sTh 0 (m + 1)).getD j none)
        (sX.getD j none) (sY.getD j none) ((fixSeg sTh 0 (m + 1)).getD m none)
        (sX.getD m none) (sY.getD m none)).2.isSome = true := by
      rw [hva1, hva2, hva3, hve1, hve2, hve3]
      exact localWaypointF_some a1 a2 a3 e1 e2 e3
    rw [← hqe]
    exact hgoal

/-- Witness for C3: a 4-frame route whose past/current heading is NaN
(`nanRoute`) still produces an entirely finite waypoint list of length
`seq_len + pred_len = 2`. -/
theorem C3_nan_headings_no_poison_witness :
    buildRoute nanRoute "route" 4 cfgA.seq_len cfgA.pred_len = some [nanWin] ∧
    (∀ mr ∈ nanRoute, mr.x.isSome = true ∧ mr.y.isSome = true) ∧
    0 < cfgA.seq_len ∧
    (pyIdx (mkState cfgA [nanWin]).front 0).isSome = true ∧
    ((getitem2 (mkState cfgA [nanWin]) 0).1.isSome = true ∧
     (sampleWaypoints ((getitem2 (mkState cfgA [nanWin]) 0).1.getD [])).length =
       cfgA.seq_len + cfgA.pred_len ∧
     ∀ q ∈ sampleWaypoints ((getitem2 (mkState cfgA [nanWin]) 0).1.getD []),
       q.1.isSome = true ∧ q.2.isSome = true) :=
  ⟨rfl, by decide, by decide, rfl,
    C3_nan_headings_no_poison nanRoute "route" 4 cfgA [nanWin] rfl
      (by decide) (by decide) 0 rfl⟩
